import Mathlib

/-!
Verification of the web-crawling engine in `src/crawler/web_crawler.py`
against its natural-language specification.

Python strings are modelled as `List Char`; Python exceptions as
`Except Str`; library calls (requests, selenium, BeautifulSoup, re,
hashlib, json, time) as oracle functions supplied in an `Env`/`World`
record, so every theorem quantifies over their behaviour.  The
`urllib.parse` functions are modelled directly from CPython 3.11
(`urlsplit`, `urlparse`, `urljoin`, `urlunparse`, `urlunsplit`), since
`normalize_url` and `is_valid_url` delegate to them.
-/

namespace PyCrawl

/-- Python `str`, modelled as a list of characters. -/
abbrev Str := List Char

/-- Convert a Lean string literal to the model representation. -/
def lit (s : String) : Str := s.data

/-- Python substring test `sub in s`. -/
def strHas (sub : Str) : Str → Bool
  | [] => sub.isEmpty
  | c :: t => sub.isPrefixOf (c :: t) || strHas sub (t)

/-- Python `s.startswith(p)`. -/
def strStarts (p s : Str) : Bool := p.isPrefixOf s

/-- Python `s.endswith(p)`. -/
def strEnds (p s : Str) : Bool := p.isSuffixOf s

/-- Index of the first occurrence of `c` (Python `s.find(c)`, `none` for -1). -/
def findChar (c : Char) : Str → Option Nat
  | [] => none
  | x :: t => if x = c then some 0 else (findChar c t).map (fun i => i + 1)

/-- Index of the last occurrence of `c` (Python `s.rfind(c)`). -/
def rfindChar (c : Char) (s : Str) : Option Nat :=
  (findChar c s.reverse).map (fun i => s.length - 1 - i)

/-- Python `s.split(c)` (no maxsplit): always returns a non-empty list. -/
def splitAll (c : Char) : Str → List Str
  | [] => [[]]
  | x :: t =>
    if x = c then [] :: splitAll c t
    else
      match splitAll c t with
      | h :: r => (x :: h) :: r
      | [] => [[x]]

/-- Python `c.join(parts)`. -/
def joinWith (c : Char) : List Str → Str
  | [] => []
  | [p] => p
  | p :: r => p ++ c :: joinWith c r

/-- Membership of a string in a list of strings (Python `s in l`). -/
def memb (s : Str) (l : List Str) : Bool := l.any (fun t => t = s)

/-- Python `str.lower` on a single character (ASCII, as used on scheme text). -/
def pyLowerChar (c : Char) : Char :=
  if 65 ≤ c.toNat ∧ c.toNat ≤ 90 then Char.ofNat (c.toNat + 32) else c

/-- Characters stripped from the left of a URL by `urlsplit`
(`_WHATWG_C0_CONTROL_OR_SPACE`: code points `0x00`–`0x20`). -/
def isC0OrSpace (c : Char) : Bool := c.toNat ≤ 32

/-- `_UNSAFE_URL_BYTES_TO_REMOVE`: tab (9), LF (10), CR (13) are deleted
anywhere. -/
def isUnsafeByte (c : Char) : Bool :=
  c.toNat = 9 || c.toNat = 10 || c.toNat = 13

/-- `urllib.parse.scheme_chars` (ASCII letters, digits, `+`, `-`, `.`). -/
def isSchemeChar (c : Char) : Bool :=
  (65 ≤ c.toNat && c.toNat ≤ 90) || (97 ≤ c.toNat && c.toNat ≤ 122) ||
  (48 ≤ c.toNat && c.toNat ≤ 57) || c.toNat = 43 || c.toNat = 45 || c.toNat = 46

/-- `urllib.parse.uses_relative` (CPython 3.11). -/
def uses_relative : List Str :=
  ["", "ftp", "http", "gopher", "nntp", "imap",
   "wais", "file", "https", "shttp", "mms",
   "prospero", "rtsp", "rtsps", "rtspu", "sftp",
   "svn", "svn+ssh", "ws", "wss"].map String.data

/-- `urllib.parse.uses_netloc` (CPython 3.11). -/
def uses_netloc : List Str :=
  ["", "ftp", "http", "gopher", "nntp", "telnet",
   "imap", "wais", "file", "mms", "https", "shttp",
   "snews", "prospero", "rtsp", "rtsps", "rtspu", "rsync",
   "svn", "svn+ssh", "sftp", "nfs", "git", "git+ssh",
   "ws", "wss"].map String.data

/-- `urllib.parse.uses_params` (CPython 3.11). -/
def uses_params : List Str :=
  ["", "ftp", "hdl", "prospero", "http", "imap",
   "https", "shttp", "rtsp", "rtsps", "rtspu", "sip",
   "sips", "mms", "sftp", "tel"].map String.data

/-- Result of `urlsplit`. -/
structure SplitRes where
  scheme : Str
  netloc : Str
  path : Str
  query : Str
  fragment : Str
deriving DecidableEq

/-- Result of `urlparse` (adds `params`). -/
structure ParseRes where
  scheme : Str
  netloc : Str
  path : Str
  params : Str
  query : Str
  fragment : Str
deriving DecidableEq

/-- Fragment/query splitting tail of `urlsplit` (`allow_fragments=True`
at every call site in the crawler). -/
def urlsplitTail (scheme netloc url : Str) : SplitRes :=
  let (url1, fragment) :=
    match findChar '#' url with
    | some i => (url.take i, url.drop (i + 1))
    | none => (url, [])
  let (url2, query) :=
    match findChar '?' url1 with
    | some i => (url1.take i, url1.drop (i + 1))
    | none => (url1, [])
  ⟨scheme, netloc, url2, query, fragment⟩

/-- CPython 3.11 `urllib.parse.urlsplit`.  The two `ValueError`s raised on
bracketed netlocs are modelled as errors; the `_checknetloc` NFKC check
(which can only fire on non-ASCII input) is not modelled, and theorems
quantifying over URL text therefore restrict to ASCII input. -/
def urlsplitE (url0 : Str) (scheme0 : Str) : Except Str SplitRes :=
  let url1 := (url0.dropWhile isC0OrSpace).filter (fun c => !isUnsafeByte c)
  let ds0 := (scheme0.dropWhile isC0OrSpace).reverse.dropWhile isC0OrSpace
  let dscheme := (ds0.reverse).filter (fun c => !isUnsafeByte c)
  let (scheme, url2) :=
    match findChar ':' url1 with
    | some i =>
      if 0 < i ∧ (url1.headD ' ').isAlpha ∧ (url1.take i).all isSchemeChar then
        ((url1.take i).map pyLowerChar, url1.drop (i + 1))
      else (dscheme, url1)
    | none => (dscheme, url1)
  if url2.take 2 = ['/', '/'] then
    let rest := url2.drop 2
    let netloc := rest.takeWhile (fun c => !(c = '/' || c = '?' || c = '#'))
    let url3 := rest.drop netloc.length
    if (strHas ['['] netloc && !strHas [']'] netloc) ||
       (strHas [']'] netloc && !strHas ['['] netloc) then
      .error (lit "ValueError: Invalid IPv6 URL")
    else if strHas ['['] netloc then
      .error (lit "ValueError: bracketed host outside modelled fragment")
    else
      .ok (urlsplitTail scheme netloc url3)
  else
    .ok (urlsplitTail scheme [] url2)

/-- CPython `urllib.parse._splitparams`. -/
def splitparams (u : Str) : Str × Str :=
  if strHas ['/'] u then
    match rfindChar '/' u with
    | some j =>
      match findChar ';' (u.drop j) with
      | some k => (u.take (j + k), u.drop (j + k + 1))
      | none => (u, [])
    | none => (u, [])
  else
    match findChar ';' u with
    | some i => (u.take i, u.drop (i + 1))
    | none => (u, [])

/-- CPython 3.11 `urllib.parse.urlparse`. -/
def urlparseE (url : Str) (scheme0 : Str) : Except Str ParseRes := do
  let r ← urlsplitE url scheme0
  let (path, params) :=
    if memb r.scheme uses_params && strHas [';'] r.path then splitparams r.path
    else (r.path, [])
  return ⟨r.scheme, r.netloc, path, params, r.query, r.fragment⟩

/-- CPython `urllib.parse.urlunsplit`. -/
def urlunsplit (scheme netloc url query fragment : Str) : Str :=
  let url :=
    if netloc ≠ [] ∨ (scheme ≠ [] ∧ memb scheme uses_netloc ∧ url.take 2 ≠ ['/', '/']) then
      let url := if url ≠ [] ∧ url.headD ' ' ≠ '/' then '/' :: url else url
      '/' :: '/' :: (netloc ++ url)
    else url
  let url := if scheme ≠ [] then scheme ++ ':' :: url else url
  let url := if query ≠ [] then url ++ '?' :: query else url
  if fragment ≠ [] then url ++ '#' :: fragment else url

/-- CPython `urllib.parse.urlunparse`. -/
def urlunparse (scheme netloc path params query fragment : Str) : Str :=
  urlunsplit scheme netloc (if params ≠ [] then path ++ ';' :: params else path)
    query fragment

/-- `segments[1:-1] = filter(None, segments[1:-1])` from `urljoin`. -/
def filtMiddle (l : List Str) : List Str :=
  match l with
  | [] => []
  | [a] => [a]
  | a :: rest => a :: (rest.dropLast.filter (fun x => x ≠ [])) ++ [rest.getLastD []]

/-- The `resolved_path` accumulation loop of `urljoin` (with the
`IndexError`-swallowing `pop` for `..` segments). -/
def resolveSegs (segments : List Str) : List Str :=
  segments.foldl
    (fun acc seg =>
      if seg = ['.', '.'] then acc.dropLast
      else if seg = ['.'] then acc
      else acc ++ [seg])
    []

/-- CPython 3.11 `urllib.parse.urljoin`. -/
def urljoinE (base url : Str) : Except Str Str :=
  if base = [] then .ok url
  else if url = [] then .ok base
  else
    match urlparseE base [] with
    | .error e => .error e
    | .ok b =>
      match urlparseE url b.scheme with
      | .error e => .error e
      | .ok u =>
        if u.scheme ≠ b.scheme ∨ ¬ memb u.scheme uses_relative then .ok url
        else if memb u.scheme uses_netloc ∧ u.netloc ≠ [] then
          .ok (urlunparse u.scheme u.netloc u.path u.params u.query u.fragment)
        else
          let netloc := if memb u.scheme uses_netloc then b.netloc else u.netloc
          if u.path = [] ∧ u.params = [] then
            let q := if u.query = [] then b.query else u.query
            .ok (urlunparse u.scheme netloc b.path b.params q u.fragment)
          else
            let baseParts0 := splitAll '/' b.path
            let baseParts :=
              if baseParts0.getLastD [] ≠ [] then baseParts0.dropLast
              else baseParts0
            let segments :=
              if u.path.take 1 = ['/'] then splitAll '/' u.path
              else filtMiddle (baseParts ++ splitAll '/' u.path)
            let resolved0 := resolveSegs segments
            let resolved :=
              if segments.getLastD [] = ['.'] ∨
                  segments.getLastD [] = ['.', '.'] then
                resolved0 ++ [[]]
              else resolved0
            let joined := joinWith '/' resolved
            .ok (urlunparse u.scheme netloc
              (if joined = [] then ['/'] else joined) u.params u.query
              u.fragment)

/-- `WebCrawler.normalize_url` (web_crawler.py lines 153-179): resolve
against the base, drop params/query/fragment, strip one trailing slash
unless the path is the bare root.  The unused `base_parsed = urlparse(base_url)`
at line 164 is kept because it can raise. -/
def normalize_urlE (url base_url : Str) : Except Str Str :=
  match urlparseE base_url [] with
  | .error e => .error e
  | .ok _base_parsed =>
    match urljoinE base_url url with
    | .error e => .error e
    | .ok normalized =>
      match urlparseE normalized [] with
      | .error e => .error e
      | .ok parsed =>
        let head := parsed.scheme ++ ':' :: '/' :: '/' :: parsed.netloc
        let n := head ++ parsed.path
        let n :=
          if n.getLastD ' ' = '/' ∧ n.length > head.length + 1 then n.dropLast
          else n
        .ok n

/-- `CrawlConfig`: the recognized option keys of the `self.config` dict
built in `WebCrawler.__init__` (web_crawler.py lines 42-62). -/
structure Config where
  max_depth : Nat
  max_pages : Nat
  timeout : Nat
  user_agent : Str
  delay : Nat
  use_selenium : Bool
  chrome_headless : Bool
  allow_domains : List Str
  deny_domains : List Str
  download_images : Bool
  image_dir : Str
  download_videos : Bool
  video_dir : Str
  follow_links : Bool
  extract_text : Bool
  extract_images : Bool
  extract_videos : Bool
  extract_links : Bool
  extract_metadata : Bool
deriving DecidableEq

/-- The default configuration dict of `WebCrawler.__init__`. -/
def default_config : Config where
  max_depth := 2
  max_pages := 100
  timeout := 10
  user_agent := lit "Mozilla/5.0 (Windows NT 10.0; Win64; x64) AppleWebKit/537.36 (KHTML, like Gecko) Chrome/91.0.4472.124 Safari/537.36"
  delay := 1
  use_selenium := true
  chrome_headless := true
  allow_domains := []
  deny_domains := []
  download_images := false
  image_dir := lit "./images"
  download_videos := true
  video_dir := lit "./videos"
  follow_links := true
  extract_text := true
  extract_images := true
  extract_videos := true
  extract_links := true
  extract_metadata := true

/-- `WebCrawler.is_valid_url` (web_crawler.py lines 124-151): scheme and
netloc must be non-empty; if `allow_domains` is non-empty the netloc must
end with one of its entries; a netloc ending with a `deny_domains` entry
is rejected.  The surrounding `try/except` returns `False` on a parse
error. -/
def is_valid_url (cfg : Config) (url : Str) : Bool :=
  match urlparseE url [] with
  | .error _ => false
  | .ok r =>
    let valid := !r.scheme.isEmpty && !r.netloc.isEmpty
    let domain := r.netloc
    let valid :=
      if valid && !cfg.allow_domains.isEmpty then
        cfg.allow_domains.any (fun a => strEnds a domain)
      else valid
    if valid && !cfg.deny_domains.isEmpty then
      !(cfg.deny_domains.any (fun d => strEnds d domain))
    else valid

/-! ## Dynamic Python values

`extract_content` returns a plain Python list while its caller `crawl`
treats the result as a dict; the claims about that interaction require a
small model of Python runtime values and of the exceptions raised when a
dict operation is applied to a list. -/

/-- A Python runtime value (the fragment the crawler manipulates). -/
inductive PyObj where
  | str (s : Str)
  | int (n : Int)
  | bool (b : Bool)
  | none
  | list (xs : List PyObj)
  | dict (entries : List (Str × PyObj))

mutual

/-- Python `==` on the modelled values (dict comparison is entry-ordered,
which is only ever exercised on equal-order dicts in the crawler). -/
def pyEq : PyObj → PyObj → Bool
  | .str a, .str b => a == b
  | .int a, .int b => a == b
  | .bool a, .bool b => a == b
  | .none, .none => true
  | .list xs, .list ys => pyEqList xs ys
  | .dict es, .dict fs => pyEqDict es fs
  | _, _ => false

def pyEqList : List PyObj → List PyObj → Bool
  | [], [] => true
  | x :: xs, y :: ys => pyEq x y && pyEqList xs ys
  | _, _ => false

def pyEqDict : List (Str × PyObj) → List (Str × PyObj) → Bool
  | [], [] => true
  | (k, v) :: es, (k', v') :: fs => k == k' && pyEq v v' && pyEqDict es fs
  | _, _ => false

end

/-- Python truthiness for the modelled values. -/
def pyTruthy : PyObj → Bool
  | .str s => !s.isEmpty
  | .int n => n ≠ 0
  | .bool b => b
  | .none => false
  | .list xs => !xs.isEmpty
  | .dict es => !es.isEmpty

/-- Ordered-dict lookup. -/
def dictLookup (es : List (Str × PyObj)) (k : Str) : Option PyObj :=
  match es with
  | [] => Option.none
  | (k', v) :: t => if k' = k then some v else dictLookup t k

/-- Ordered-dict update: overwrite an existing key in place, else append
(CPython insertion-order semantics). -/
def dictSet (es : List (Str × PyObj)) (k : Str) (v : PyObj) : List (Str × PyObj) :=
  match es with
  | [] => [(k, v)]
  | (k', v') :: t => if k' = k then (k, v) :: t else (k', v') :: dictSet t k v

/-- `o.get(k, default)`: raises `AttributeError` unless `o` is a dict. -/
def pyGet (o : PyObj) (k : Str) (default : PyObj) : Except Str PyObj :=
  match o with
  | .dict es => .ok ((dictLookup es k).getD default)
  | .list _ => .error (lit "AttributeError: list object has no attribute get")
  | _ => .error (lit "AttributeError: object has no attribute get")

/-- `o[k] = v` for a string key: raises `TypeError` unless `o` is a dict. -/
def pySetItem (o : PyObj) (k : Str) (v : PyObj) : Except Str PyObj :=
  match o with
  | .dict es => .ok (.dict (dictSet es k v))
  | .list _ => .error (lit "TypeError: list indices must be integers or slices, not str")
  | _ => .error (lit "TypeError: object does not support item assignment")

/-- `o[k]` for a string key (dict indexing, `KeyError` when absent). -/
def pyGetItemStr (o : PyObj) (k : Str) : Except Str PyObj :=
  match o with
  | .dict es =>
    match dictLookup es k with
    | some v => .ok v
    | Option.none => .error (lit "KeyError")
  | .list _ => .error (lit "TypeError: list indices must be integers or slices, not str")
  | _ => .error (lit "TypeError: object is not subscriptable")

/-- `o[i]` for an integer index on a list (`IndexError` out of range). -/
def pyGetItemNat (o : PyObj) (i : Nat) : Except Str PyObj :=
  match o with
  | .list xs =>
    match xs.drop i with
    | x :: _ => .ok x
    | [] => .error (lit "IndexError: list index out of range")
  | _ => .error (lit "TypeError: object is not subscriptable")

/-- `x in o` for dicts (key membership) and lists (element equality);
other containers are not needed by the crawler. -/
def pyContains (x : PyObj) (o : PyObj) : Except Str Bool :=
  match o with
  | .dict es =>
    match x with
    | .str k => .ok (es.any (fun e => e.fst = k))
    | _ => .ok false
  | .list xs => .ok (xs.any (fun y => pyEq y x))
  | _ => .error (lit "TypeError: argument is not iterable")

/-! ## Library oracles and world state

Network, browser, HTML parsing, regex, hashing, JSON decoding and the
clock are external libraries from the crawler's point of view; they are
modelled as oracle functions in `Env`.  `World` carries the filesystem
(the set of existing paths) and the log of `requests.get` calls, which
is how "network transfer" is observed by the idempotence claims. -/

/-- `os.path.splitext(p)[1]` (POSIX): extension after the last dot of the
basename, empty when the basename has no non-dot character before it. -/
def splitextExt (p : Str) : Str :=
  let start := match rfindChar '/' p with | some i => i + 1 | Option.none => 0
  match rfindChar '.' p with
  | some d =>
    if start ≤ d ∧ ((p.drop start).take (d - start)).any (fun c => c ≠ '.') then
      p.drop d
    else []
  | Option.none => []

/-- `os.path.join(dir, f)` (POSIX, as used with a relative filename). -/
def ospath_join (dir f : Str) : Str :=
  if strStarts ['/'] f then f
  else if dir = [] ∨ dir.getLastD ' ' = '/' then dir ++ f
  else dir ++ '/' :: f

/-- Python `str.strip()` whitespace. -/
def isPySpace (c : Char) : Bool :=
  c = ' ' || c = '\t' || c = '\n' || c = '\r' || c.toNat = 11 || c.toNat = 12

def pyStrip (s : Str) : Str :=
  ((s.dropWhile isPySpace).reverse.dropWhile isPySpace).reverse

/-- Outcome of a `requests.get` call: a response with status and body, or
a raised `RequestException` (transport errors; default status 500 at the
`_fetch_with_requests` handler). -/
inductive ReqResult where
  | ok (status : Nat) (text : Str)
  | exn (msg : Str)

/-- A `<video>` tag as seen by the extractor: its `src` / `data-src`
attributes, the first nested `<source>` child (with its `src`), and the
`type` / `title` attributes. -/
structure VideoTag where
  src : Option Str
  dataSrc : Option Str
  sourceTag : Option (Option Str)
  vtype : Option Str
  title : Option Str

/-- The BeautifulSoup view `extract_content` needs: the `<video>` tags
and the `.string` of each `<script>` tag (`none` when absent). -/
structure Soup where
  videoTags : List VideoTag
  scripts : List (Option Str)

/-- The regular expressions of `extract_content`, as opaque pattern
names; the `re` engine is an oracle over them.  Constructor order follows
the source: the bare mp4/m3u8/ts URL searches, the `video_patterns` list
(web_crawler.py lines 359-386), the `id_patterns` list (lines 424-439)
and the `url_id_patterns` list (lines 448-455). -/
inductive RePat where
  | anyMp4 | anyM3u8 | anyTs
  | videoUrlA | videoPathA | videoLinkA | videoIdA | playerIdA
  | urlMp4A | urlMp4B | m3u8F | mainUrlF | backupUrlF | videoUrlF
  | qiyiPlayerConfigP | qPlayerTvidP | tvidP | vidP | playerIdAttrP
  | srcMp4P | dataSrcMp4P
  | playInfoF | adaptiveVideosF | clarityF | programVideoF | vrsVideoF
  | idVideoId | idTvid | idVid | idVIdCap | idQPlayerTvid
  | idQiyiTvid | idQiyiVid | idTvidField | idVidField
  | idTvidParam | idVidParam | idUTvidParam | idUVidParam
  | uidVHtml | uidTvidEq | uidVidEq | uidVideos | uidVSlash | uidPlay

/-- The `video_patterns` list, in source order. -/
def video_patterns : List RePat :=
  [.videoUrlA, .videoPathA, .videoLinkA, .videoIdA, .playerIdA,
   .urlMp4A, .urlMp4B, .m3u8F, .mainUrlF, .backupUrlF, .videoUrlF,
   .qiyiPlayerConfigP, .qPlayerTvidP, .tvidP, .vidP, .playerIdAttrP,
   .srcMp4P, .dataSrcMp4P,
   .playInfoF, .adaptiveVideosF, .clarityF, .programVideoF, .vrsVideoF]

/-- The `id_patterns` list, in source order. -/
def id_patterns : List RePat :=
  [.idVideoId, .idTvid, .idVid, .idVIdCap, .idQPlayerTvid,
   .idQiyiTvid, .idQiyiVid, .idTvidField, .idVidField,
   .idTvidParam, .idVidParam, .idUTvidParam, .idUVidParam]

/-- The `url_id_patterns` list, in source order. -/
def url_id_patterns : List RePat :=
  [.uidVHtml, .uidTvidEq, .uidVidEq, .uidVideos, .uidVSlash, .uidPlay]

/-- The three URL patterns of the non-JSON API-response fallback. -/
def api_text_patterns : List RePat := [.anyMp4, .anyM3u8, .anyTs]

/-- A JSON value, for the recursive `find_urls` search over API
responses. -/
inductive Json where
  | str (s : Str)
  | num (n : Int)
  | bool (b : Bool)
  | null
  | arr (xs : List Json)
  | obj (fields : List (Str × Json))

/-- `url_keys` of the nested `find_urls` (verbatim: the mixed-case
entries can never equal a lowercased key, faithfully preserved). -/
def url_keys : List Str :=
  ["url", "m3u8", "mainUrl", "backupUrl", "videoUrl", "mp4", "src"].map String.data

/-- The streaming-file extensions checked by `find_urls`. -/
def media_exts : List Str := [".mp4", ".m3u8", ".ts", ".flv"].map String.data

mutual

/-- The recursive `find_urls` helper defined inside `extract_content`
(web_crawler.py lines 529-542). -/
def find_urls : Json → List Str
  | .obj fs => findUrlsFields fs
  | .arr xs => findUrlsItems xs
  | _ => []

def findUrlsFields : List (Str × Json) → List Str
  | [] => []
  | (k, v) :: rest =>
    (match v with
     | .str s =>
       if memb (k.map pyLowerChar) url_keys ∧
          media_exts.any (fun e => strHas e (s.map pyLowerChar)) then [s]
       else []
     | .obj _ => find_urls v
     | .arr _ => find_urls v
     | _ => []) ++ findUrlsFields rest

def findUrlsItems : List Json → List Str
  | [] => []
  | x :: rest => find_urls x ++ findUrlsItems rest

end

/-- The injected AI capability (`ai_model`): duck-typed object with
`analyze` and `summarize_text`; either may raise. -/
structure AIModel where
  analyze : PyObj → Str → Except Str PyObj
  summarize_text : PyObj → Nat → Str → Except Str PyObj

/-- Oracles for every library the crawler calls. -/
structure Env where
  md5 : Str → Str
  createDriver : Bool
  quitOk : Bool
  render : Str → Except Str Str
  httpGet : Str → ReqResult
  parseHtml : Str → Soup
  reFindall : RePat → Str → List Str
  reSearch : RePat → Str → Option Str
  jsonParse : Str → Option Json
  clock : Nat → Int

/-- Filesystem paths, the `requests.get` log, and a clock tick. -/
structure World where
  fs : List Str
  getLog : List Str
  tick : Nat

/-- `time.time()`. -/
def now (env : Env) (w : World) : Int × World :=
  (env.clock w.tick, { w with tick := w.tick + 1 })

/-- A `requests.get` call: consults the network oracle and records the
transfer in the log. -/
def requestsGet (env : Env) (w : World) (u : Str) : ReqResult × World :=
  (env.httpGet u, { w with getLog := w.getLog ++ [u] })

/-- `raise_for_status` fires for 4xx/5xx responses. -/
def isHttpError (st : Nat) : Bool := 400 ≤ st && st < 600

/-! ## Media Downloader -/

/-- The shared download tail of `download_image` and the plain video
download: if the target exists return it without fetching; otherwise GET
(`raise_for_status` failures and transport failures return `None`) and
write the file. -/
def fetchToFile (env : Env) (w : World) (target u : Str) : Option Str × World :=
  if memb target w.fs then (some target, w)
  else
    match requestsGet env w u with
    | (.ok st _, w') =>
      if isHttpError st then (Option.none, w')
      else (some target, { w' with fs := target :: w'.fs })
    | (.exn _, w') => (Option.none, w')

/-- `WebCrawler.download_image` (web_crawler.py lines 607-648): target is
`md5(url) + ext` inside `image_dir`; if the file exists return it without
fetching; otherwise GET and write; any exception returns `None`. -/
def download_image (env : Env) (cfg : Config) (w : World) (img_url : Str) :
    Option Str × World :=
  match urlparseE img_url [] with
  | .error _ => (Option.none, w)
  | .ok r =>
    let img_hash := env.md5 img_url
    let ext := if strHas ['.'] r.path then splitextExt r.path else lit ".jpg"
    let ext := if ext.length > 5 then lit ".jpg" else ext
    fetchToFile env w (ospath_join cfg.image_dir (img_hash ++ ext)) img_url

/-- Parse the ts-segment URLs out of an m3u8 manifest (the loop at
web_crawler.py lines 691-696); a raising `urljoin` propagates to the
enclosing handler. -/
def tsUrlsE (video_url : Str) : List Str → Except Str (List Str)
  | [] => .ok []
  | line :: rest =>
    if line ≠ [] ∧ ¬ strStarts ['#'] line then do
      let t ← if strStarts (lit "http") line then pure line else urljoinE video_url line
      let r ← tsUrlsE video_url rest
      return t :: r
    else tsUrlsE video_url rest

/-- The plain (non-manifest) video download path (web_crawler.py lines
724-767), shared with the m3u8 fallbacks.  `ext` is already forced to
`.mp4` when arriving from the m3u8 branch. -/
def downloadDirect (env : Env) (cfg : Config) (w : World)
    (video_hash ext video_url : Str) : Option Str × World :=
  fetchToFile env w (ospath_join cfg.video_dir (video_hash ++ ext)) video_url

/-- `WebCrawler.download_video` (web_crawler.py lines 650-767): same
content-addressed naming; a `.m3u8` URL goes through manifest download
and segment concatenation (per-segment failures skipped, manifest
failures fall back to the plain download); the outer handler returns
`None`. -/
def download_video (env : Env) (cfg : Config) (w : World) (video_url : Str) :
    Option Str × World :=
  match urlparseE video_url [] with
  | .error _ => (Option.none, w)
  | .ok r =>
    let video_hash := env.md5 video_url
    let ext := if strHas ['.'] r.path then splitextExt r.path else lit ".mp4"
    let ext := if ext.length > 5 then lit ".mp4" else ext
    if strHas (lit ".m3u8") video_url then
      -- ext = '.mp4'; the inner try falls back to the plain download on failure
      let video_path := ospath_join cfg.video_dir (video_hash ++ lit ".mp4")
      if memb video_path w.fs then (some video_path, w)
      else
        match requestsGet env w video_url with
        | (.exn _, w') => downloadDirect env cfg w' video_hash (lit ".mp4") video_url
        | (.ok st text, w') =>
          if isHttpError st then downloadDirect env cfg w' video_hash (lit ".mp4") video_url
          else
            match tsUrlsE video_url (splitAll '\n' text) with
            | .error _ => downloadDirect env cfg w' video_hash (lit ".mp4") video_url
            | .ok ts_urls =>
              if ts_urls ≠ [] then
                -- the output file is created, then each segment is fetched
                -- (failures logged and skipped), and the path returned
                let w'' := ts_urls.foldl (fun wa ts => (requestsGet env wa ts).2)
                  { w' with fs := video_path :: w'.fs }
                (some video_path, w'')
              else downloadDirect env cfg w' video_hash (lit ".mp4") video_url
    else downloadDirect env cfg w video_hash ext video_url

/-! ## Content Extractor -/

/-- One discovered video entry: the dict
`{url, type, title, path}` built by `extract_content`. -/
structure VideoRec where
  url : Str
  vtype : Str
  title : Str
  path : Option Str

def vurls (videos : List VideoRec) : List Str := videos.map (fun v => v.url)

def videoToPy (v : VideoRec) : PyObj :=
  .dict [(lit "url", .str v.url), (lit "type", .str v.vtype),
         (lit "title", .str v.title),
         (lit "path", match v.path with | some p => .str p | Option.none => .none)]

/-- Truthiness of an optional attribute string (`None` and `""` falsy). -/
def truthyO : Option Str → Bool
  | some s => !s.isEmpty
  | Option.none => false

/-- The `src` / `data-src` / nested-`source` selection for a `<video>`
tag (web_crawler.py lines 300-310). -/
def tagVideoUrl (tag : VideoTag) : Option Str :=
  if truthyO tag.src then tag.src
  else if truthyO tag.dataSrc then tag.dataSrc
  else
    match tag.sourceTag with
    | some srcAttr => if truthyO srcAttr then srcAttr else Option.none
    | Option.none => Option.none

/-- The `https://cache.video.iqiyi.com/dash?...` URL built from a bare
id match (web_crawler.py line 401). -/
def iqiyiDashUrl (id : Str) : Str :=
  lit "https://cache.video.iqiyi.com/dash?vid=" ++ id ++
    lit "&ran=0.12345&qyid=0123456789&v=0"

/-- The seven candidate API endpoints probed per video id
(web_crawler.py lines 469-477). -/
def apiEndpoints (id : Str) : List Str :=
  [iqiyiDashUrl id,
   lit "https://player.video.iqiyi.com/apis/getSource?sources=3&tvid=" ++ id,
   lit "https://mixer.video.iqiyi.com/jp/mixin/videos/" ++ id,
   lit "https://cors-anywhere.herokuapp.com/https://cache.video.iqiyi.com/dash?vid=" ++ id ++ lit "&ran=0.12345&qyid=0123456789&v=0",
   lit "https://api.iqiyi.com/video/v1/video/videoInfo?aid=qc_100001_100102&tvid=" ++ id,
   lit "https://pcw-api.iqiyi.com/albums/album/avlistinfo?aid=" ++ id ++ lit "&page=1&size=50",
   lit "https://meta.video.iqiyi.com/videos/" ++ id]

/-- Stage 1 of `extract_content`: the `<video>`-tag loop (lines
295-331).  A raising `urljoin` aborts with the videos accumulated so
far, which the outer handler then returns. -/
def videoTagsLoop (env : Env) (cfg : Config) (url : Str) :
    List VideoTag → List VideoRec → World → List VideoRec × World × Option Str
  | [], vs, w => (vs, w, Option.none)
  | tag :: rest, vs, w =>
    match tagVideoUrl tag with
    | Option.none => videoTagsLoop env cfg url rest vs w
    | some vu0 =>
      let fixed : Except Str Str :=
        if strStarts (lit "//") vu0 then .ok (lit "https:" ++ vu0)
        else if ¬ strStarts (lit "http") vu0 then urljoinE url vu0
        else .ok vu0
      match fixed with
      | .error e => (vs, w, some e)
      | .ok vu =>
        if memb vu (vurls vs) then videoTagsLoop env cfg url rest vs w
        else
          let (p, w') :=
            if cfg.download_videos then download_video env cfg w vu
            else (Option.none, w)
          let vrec : VideoRec :=
            ⟨vu, (tag.vtype.filter (fun s => !s.isEmpty)).getD (lit "video/mp4"),
                 (tag.title.filter (fun s => !s.isEmpty)).getD (lit "视频"), p⟩
          videoTagsLoop env cfg url rest (vs ++ [vrec]) w'

/-- The mp4-literal matches of one script (lines 339-356). -/
def mp4MatchLoop (env : Env) (cfg : Config) :
    List Str → List VideoRec → World → List VideoRec × World
  | [], vs, w => (vs, w)
  | m :: rest, vs, w =>
    if ¬ strHas (lit "app-error-tip") m ∧ ¬ memb m (vurls vs) then
      let (p, w') :=
        if cfg.download_videos then download_video env cfg w m else (Option.none, w)
      mp4MatchLoop env cfg rest (vs ++ [⟨m, lit "video/mp4", lit "视频", p⟩]) w'
    else mp4MatchLoop env cfg rest vs w

/-- The `video_patterns` matches of one script (lines 388-416):
protocol-relative URLs get `https:`, bare iqiyi ids become dash-API
URLs, other non-`http` matches are skipped. -/
def patternMatchLoop (env : Env) (cfg : Config) (url : Str) :
    List Str → List VideoRec → World → List VideoRec × World
  | [], vs, w => (vs, w)
  | m0 :: rest, vs, w =>
    let m? : Option Str :=
      if strStarts (lit "//") m0 then some (lit "https:" ++ m0)
      else if ¬ strStarts (lit "http") m0 then
        if strHas (lit "iqiyi.com") url ∧ m0.length > 5 ∧ ¬ strHas ['.'] m0 then
          some (iqiyiDashUrl m0)
        else Option.none
      else some m0
    match m? with
    | Option.none => patternMatchLoop env cfg url rest vs w
    | some m =>
      if ¬ memb m (vurls vs) then
        let (p, w') :=
          if cfg.download_videos then download_video env cfg w m else (Option.none, w)
        patternMatchLoop env cfg url rest (vs ++ [⟨m, lit "video/mp4", lit "视频", p⟩]) w'
      else patternMatchLoop env cfg url rest vs w

/-- Stage 2 of `extract_content`: the `<script>`-text loop (lines
333-416).  Scripts without text are skipped. -/
def scriptsLoop (env : Env) (cfg : Config) (url : Str) :
    List (Option Str) → List VideoRec → World → List VideoRec × World
  | [], vs, w => (vs, w)
  | s? :: rest, vs, w =>
    match s? with
    | Option.none => scriptsLoop env cfg url rest vs w
    | some s =>
      if s.isEmpty then scriptsLoop env cfg url rest vs w
      else
        let (vs1, w1) := mp4MatchLoop env cfg (env.reFindall .anyMp4 s) vs w
        let (vs2, w2) := video_patterns.foldl
          (fun (acc : List VideoRec × World) pat =>
            patternMatchLoop env cfg url (env.reFindall pat s) acc.1 acc.2)
          (vs1, w1)
        scriptsLoop env cfg url rest vs2 w2

/-- Insertion-ordered model of the `video_ids` set (line 421). -/
def addUniq (l : List Str) (x : Str) : List Str :=
  if memb x l then l else l ++ [x]

/-- The video-id collection of the iqiyi stage (lines 423-462). -/
def collectVideoIds (env : Env) (url html : Str) : List Str :=
  let fromHtml := (id_patterns.flatMap (fun p => env.reFindall p html)).foldl
    (fun acc vid => if !vid.isEmpty ∧ !(pyStrip vid).isEmpty then addUniq acc (pyStrip vid) else acc)
    []
  url_id_patterns.foldl
    (fun acc p =>
      match env.reSearch p url with
      | some vid => if !vid.isEmpty ∧ !(pyStrip vid).isEmpty then addUniq acc (pyStrip vid) else acc
      | Option.none => acc)
    fromHtml

/-- The per-URL loop over `find_urls` results of a JSON API response
(lines 549-566): the error-tip filter and dedup run on the raw match,
the `//` fix happens before download/append. -/
def apiJsonUrlLoop (env : Env) (cfg : Config) (vid : Str) :
    List Str → List VideoRec → World → List VideoRec × World
  | [], vs, w => (vs, w)
  | au :: rest, vs, w =>
    if ¬ strHas (lit "app-error-tip") au ∧ ¬ memb au (vurls vs) then
      let au' := if strStarts (lit "//") au then lit "https:" ++ au else au
      let (p, w') :=
        if cfg.download_videos then download_video env cfg w au' else (Option.none, w)
      let ty := if strHas (lit ".mp4") au' then lit "video/mp4" else lit "video/m3u8"
      apiJsonUrlLoop env cfg vid rest
        (vs ++ [⟨au', ty, lit "爱奇艺视频_" ++ vid, p⟩]) w'
    else apiJsonUrlLoop env cfg vid rest vs w

/-- The regex fallback over a non-JSON API response (lines 567-590). -/
def apiTextUrlLoop (env : Env) (cfg : Config) (vid : Str) :
    List Str → List VideoRec → World → List VideoRec × World
  | [], vs, w => (vs, w)
  | m :: rest, vs, w =>
    if ¬ strHas (lit "app-error-tip") m ∧ ¬ memb m (vurls vs) then
      let (p, w') :=
        if cfg.download_videos then download_video env cfg w m else (Option.none, w)
      let ty := if strHas (lit ".mp4") m then lit "video/mp4" else lit "video/m3u8"
      apiTextUrlLoop env cfg vid rest
        (vs ++ [⟨m, ty, lit "爱奇艺视频_" ++ vid, p⟩]) w'
    else apiTextUrlLoop env cfg vid rest vs w

/-- One API-endpoint probe (lines 495-600): a raised request appends the
endpoint itself as an `api_endpoint` entry; a non-200 response is
skipped; a JSON response is searched recursively, a non-JSON response by
regex. -/
def probeEndpoint (env : Env) (cfg : Config) (vid endpoint : Str)
    (vs : List VideoRec) (w : World) : List VideoRec × World :=
  if ¬ memb endpoint (vurls vs) then
    match requestsGet env w endpoint with
    | (.exn _, w') =>
      if ¬ memb endpoint (vurls vs) then
        (vs ++ [⟨endpoint, lit "api_endpoint", lit "爱奇艺API端点_" ++ vid, Option.none⟩], w')
      else (vs, w')
    | (.ok st text, w') =>
      if st ≠ 200 then (vs, w')
      else
        match env.jsonParse text with
        | some data => apiJsonUrlLoop env cfg vid (find_urls data) vs w'
        | Option.none =>
          api_text_patterns.foldl
            (fun (acc : List VideoRec × World) pat =>
              apiTextUrlLoop env cfg vid (env.reFindall pat text) acc.1 acc.2)
            (vs, w')
  else (vs, w)

/-- Stage 3 of `extract_content`: the iqiyi-specific id extraction and
API probing (lines 418-600). -/
def iqiyiStage (env : Env) (cfg : Config) (url html : Str)
    (vs : List VideoRec) (w : World) : List VideoRec × World :=
  (collectVideoIds env url html).foldl
    (fun (acc : List VideoRec × World) vid =>
      (apiEndpoints vid).foldl
        (fun (acc2 : List VideoRec × World) ep =>
          probeEndpoint env cfg vid ep acc2.1 acc2.2)
        acc)
    (vs, w)

/-- `WebCrawler.extract_content` (web_crawler.py lines 283-605).
Despite its docstring-level contract `extract(url, raw_content) ->
PageRecord`, the function builds and returns only the list of video
dicts; the enclosing `try` returns whatever was accumulated when an
exception fires. -/
def extract_content (env : Env) (cfg : Config) (url html : Str) (w : World) :
    List VideoRec × World :=
  let soup := env.parseHtml html
  let (vs1, w1, err) := videoTagsLoop env cfg url soup.videoTags [] w
  match err with
  | some _ => (vs1, w1)
  | Option.none =>
    let (vs2, w2) := scriptsLoop env cfg url soup.scripts vs1 w1
    if strHas (lit "iqiyi.com") url then iqiyiStage env cfg url html vs2 w2
    else (vs2, w2)

/-- The value of `extract_content` as the dynamic object `crawl`
receives: a Python list of video dicts. -/
def extractPage (env : Env) (cfg : Config) (url html : Str) (w : World) :
    PyObj × World :=
  (.list ((extract_content env cfg url html w).1.map videoToPy),
   (extract_content env cfg url html w).2)

/-! ## AI Filter Hook -/

/-- The preset categories for similarity analysis (lines 805-808). -/
def general_categories : List Str :=
  ["新闻文章", "技术博客", "产品页面", "博客文章",
   "教程指南", "论坛讨论", "社交媒体", "电子商务"].map String.data

/-- The `try` body of `filter_with_ai` (web_crawler.py lines 780-818). -/
def filter_try (content : PyObj) (m? : Option AIModel) (keywords : List Str)
    (t : Int) : Except Str PyObj := do
  match m? with
  | Option.none =>
    pySetItem content (lit "ai_analysis")
      (.dict [(lit "status", .str (lit "skipped")),
              (lit "reason", .str (lit "No AI model provided"))])
  | some m =>
    let textVal ← pyGet content (lit "text") (.str [])
    let analysis0 := PyObj.dict [(lit "text", textVal)]
    let imagesVal ← pyGet content (lit "images") .none
    let analysis1 ←
      if pyTruthy imagesVal then do
        let imgs ← pyGetItemStr content (lit "images")
        let first ← pyGetItemNat imgs 0
        let p ← pyGet first (lit "path") .none
        let u ← pyGet first (lit "url") .none
        if pyTruthy p ∨ pyTruthy u then
          pySetItem analysis0 (lit "image") (if pyTruthy p then p else u)
        else pure analysis0
      else pure analysis0
    let result ←
      if keywords ≠ [] then m.analyze analysis1 (lit "classification")
      else do
        let merged ← pySetItem analysis1 (lit "text")
          (.list (general_categories.map PyObj.str))
        m.analyze merged (lit "similarity")
    pySetItem content (lit "ai_analysis")
      (.dict [(lit "status", .str (lit "completed")),
              (lit "results", result), (lit "timestamp", .int t)])

/-- `WebCrawler.filter_with_ai` (web_crawler.py lines 769-823): the
handler itself assigns `content['ai_analysis']`, so when `content` is
not a dict the handler raises in turn and the exception escapes. -/
def filter_with_ai (env : Env) (w : World) (content : PyObj)
    (m? : Option AIModel) (keywords : List Str) : Except Str PyObj × World :=
  let (t, w') := now env w
  match filter_try content m? keywords t with
  | .ok c => (.ok c, w')
  | .error e =>
    match pySetItem content (lit "ai_analysis")
        (.dict [(lit "status", .str (lit "error")), (lit "error", .str e)]) with
    | .ok c => (.ok c, w')
    | .error e' => (.error e', w')

/-! ## Fetcher -/

/-- `WebCrawler.initialize_selenium` (web_crawler.py lines 81-107): on a
driver-creation failure the handler degrades the crawler permanently by
writing `self.config['use_selenium'] = False`. -/
def init_selenium (env : Env) (cfg : Config) (driver : Option Unit) :
    Config × Option Unit :=
  if driver = Option.none ∧ cfg.use_selenium then
    if env.createDriver then (cfg, some ())
    else ({ cfg with use_selenium := false }, Option.none)
  else (cfg, driver)

/-- `WebCrawler.close_selenium` (lines 109-117): `driver.quit()` may
raise, in which case `self.driver` is not cleared. -/
def close_selenium (env : Env) (driver : Option Unit) : Option Unit :=
  match driver with
  | some _ => if env.quitOk then Option.none else some ()
  | Option.none => Option.none

/-- `WebCrawler._fetch_with_requests` (lines 261-281): HTTP 4xx/5xx and
transport failures are both returned as `(status, None, message)`. -/
def fetch_with_requests (env : Env) (w : World) (url : Str) :
    (Nat × Option Str × Option Str) × World :=
  match requestsGet env w url with
  | (.ok st text, w') =>
    if isHttpError st then ((st, Option.none, some (lit "HTTPError")), w')
    else ((st, some text, Option.none), w')
  | (.exn msg, w') => ((500, Option.none, some msg), w')

/-- `WebCrawler.fetch_page` (lines 181-259): the rendered path (with its
per-domain wait/scroll heuristics folded into the `render` oracle) when
selenium is configured and a session exists, otherwise the requests
path; a session that fails to initialize degrades the config. -/
def fetch_page (env : Env) (cfg : Config) (driver : Option Unit) (w : World)
    (url : Str) : (Nat × Option Str × Option Str) × Config × Option Unit × World :=
  if cfg.use_selenium then
    let cd := if driver = Option.none then init_selenium env cfg driver else (cfg, driver)
    match cd.2 with
    | Option.none =>
      ((fetch_with_requests env w url).1, cd.1, Option.none,
       (fetch_with_requests env w url).2)
    | some _ =>
      match env.render url with
      | .ok content => ((200, some content, Option.none), cd.1, cd.2, w)
      | .error e => ((500, Option.none, some e), cd.1, cd.2, w)
  else
    ((fetch_with_requests env w url).1, cfg, driver, (fetch_with_requests env w url).2)

/-! ## Frontier & Orchestrator -/

/-- The `CrawlResult` dict assembled by `crawl` (time and the float
stats fields are modelled exactly: clock values are oracle integers and
the two rate fields are exact rationals). -/
structure CrawlResult where
  url : Str
  depth : Nat
  use_ai : Bool
  start_time : Int
  pages_crawled : Nat
  success_pages : Nat
  failed_pages : Nat
  results : List PyObj
  stats_visited : Nat
  stats_success_rate : Rat
  stats_avg_time : Rat
  end_time : Int
  duration : Int
  error : Option Str

/-- Ghost events recording what the loop did: each fetched task, and
each enqueue with the depth it was pushed at, the depth of the page it
was found on, and the visited-set and queue at push time. -/
inductive Event where
  | fetch (url : Str) (d : Nat)
  | enq (url : Str) (d : Nat) (parentD : Nat)
        (visitedAt : List Str) (queueAt : List (Str × Nat))

/-- The mutable state of one `crawl()` invocation: crawler attributes
(`self.config`, `self.driver`, `self.visited_urls`, `self.url_queue`,
`self.results`), the counter fields of the `crawl_result` dict, the
world, and the ghost event log. -/
structure LoopSt where
  config : Config
  driver : Option Unit
  visited : List Str
  queue : List (Str × Nat)
  results : List PyObj
  pages : Nat
  succ : Nat
  fail : Nat
  w : World
  events : List Event

/-- Outcome of one loop iteration: continue, or an exception escaping to
the `except` clause of `crawl` with the state at raise time. -/
inductive StepOut where
  | cont (st : LoopSt)
  | halt (st : LoopSt) (e : Str)

/-- The AI section of the loop body (web_crawler.py lines 886-905):
`filter_with_ai` followed by the summarization `try`, whose handler
itself assigns `page_content['summary']` and therefore re-raises when
the page object is not a dict. -/
def aiSection (env : Env) (useAi : Bool) (m? : Option AIModel)
    (keywords : List Str) (url : Str) (page : PyObj) (w : World) :
    Except Str PyObj × World :=
  match useAi, m? with
  | true, some m =>
    let (r1, w1) := filter_with_ai env w page (some m) keywords
    match r1 with
    | .error e => (.error e, w1)
    | .ok page' =>
      let attempt : Except Str PyObj := do
        let t ← pyGet page' (lit "text") (.str [])
        if pyTruthy t then
          let s ← m.summarize_text t 300 url
          pySetItem page' (lit "summary") s
        else pure page'
      match attempt with
      | .ok p => (.ok p, w1)
      | .error e =>
        (pySetItem page' (lit "summary")
          (.dict [(lit "status", .str (lit "error")), (lit "error", .str e)]), w1)
  | _, _ => (.ok page, w)

/-- The link-enqueue loop (web_crawler.py lines 913-916): each link url
not already visited and not already queued is pushed at `d + 1`.  A
non-string `link['url']` is modelled as a type error (unreachable:
`extract_content` never produces a `links` key). -/
def linksLoop (visited : List Str) (d : Nat) :
    List PyObj → List (Str × Nat) → List Event →
    Except Str (List (Str × Nat) × List Event)
  | [], q, evs => .ok (q, evs)
  | link :: rest, q, evs => do
    let lu ← pyGetItemStr link (lit "url")
    match lu with
    | .str lurl =>
      if ¬ memb lurl visited ∧ ¬ memb lurl (q.map Prod.fst) then
        linksLoop visited d rest (q ++ [(lurl, d + 1)])
          (evs ++ [Event.enq lurl (d + 1) d visited q])
      else linksLoop visited d rest q evs
    | _ => .error (lit "TypeError: non-string link url")

/-- One iteration of the crawl loop after popping `(cur, d)` (the body
of web_crawler.py lines 863-929; `st.queue` is already the remaining
queue). -/
def stepTask (env : Env) (depth : Nat) (useAi : Bool) (m? : Option AIModel)
    (keywords : List Str) (st : LoopSt) (cur : Str) (d : Nat) : StepOut :=
  if memb cur st.visited ∨ d > depth then .cont st
  else
    let st := { st with visited := cur :: st.visited, pages := st.pages + 1,
                        events := st.events ++ [Event.fetch cur d] }
    let ((status, html?, err?), cfg', driver', w') :=
      fetch_page env st.config st.driver st.w cur
    let st := { st with config := cfg', driver := driver', w := w' }
    if (status == 200) && (match html? with | some h => !h.isEmpty | Option.none => false) then
      let (page, w2) := extractPage env cfg' cur (html?.getD []) st.w
      let (pres, w3) := aiSection env useAi m? keywords cur page w2
      let st := { st with w := w3 }
      match pres with
      | .error e => .halt st e
      | .ok page' =>
        let st := { st with results := st.results ++ [page'], succ := st.succ + 1 }
        if cfg'.follow_links ∧ d < depth then
          match pyGet page' (lit "links") (.list []) with
          | .error e => .halt st e
          | .ok links =>
            match links with
            | .list ls =>
              match linksLoop st.visited d ls st.queue st.events with
              | .error e => .halt st e
              | .ok (q', evs') => .cont { st with queue := q', events := evs' }
            | _ => .halt st (lit "TypeError: object is not iterable")
        else .cont st
    else
      let failRec : PyObj :=
        .dict [(lit "url", .str cur), (lit "status_code", .int (Int.ofNat status)),
               (lit "error", match err? with | some e => .str e | Option.none => .none)]
      .cont { st with results := st.results ++ [failRec], fail := st.fail + 1 }

/-- The crawl loop (web_crawler.py lines 862-929), fuel-indexed: every
claim about it is proved for all fuel values, and fuel exhaustion simply
exits the loop with the state reached so far. -/
def crawlLoop (env : Env) (depth : Nat) (useAi : Bool) (m? : Option AIModel)
    (keywords : List Str) : Nat → LoopSt → LoopSt × Option Str
  | 0, st => (st, Option.none)
  | fuel + 1, st =>
    match st.queue with
    | [] => (st, Option.none)
    | (cur, d) :: rest =>
      if st.visited.length < st.config.max_pages then
        match stepTask env depth useAi m? keywords { st with queue := rest } cur d with
        | .cont st' => crawlLoop env depth useAi m? keywords fuel st'
        | .halt st' e => (st', some e)
      else (st, Option.none)

/-- Crawler-instance state surviving across `crawl()` calls:
`self.config`, `self.visited_urls`, `self.url_queue`, `self.results`,
`self.driver`. -/
structure Crawler where
  config : Config
  visited : List Str
  queue : List (Str × Nat)
  results : List PyObj
  driver : Option Unit

/-- A fresh `WebCrawler(config)` (directories creation has no bearing on
the modelled filesystem queries, which are per-file). -/
def newCrawler (cfg : Config) : Crawler :=
  { config := cfg, visited := [], queue := [], results := [], driver := Option.none }

/-- State reset and selenium initialization at the head of `crawl`
(web_crawler.py lines 838-859): the start time and the initial loop
state. -/
def crawlStart (env : Env) (cr : Crawler) (url : Str) (w : World) : Int × LoopSt :=
  ((now env w).1,
   { config := (if cr.config.use_selenium then init_selenium env cr.config cr.driver
                else (cr.config, cr.driver)).1,
     driver := (if cr.config.use_selenium then init_selenium env cr.config cr.driver
                else (cr.config, cr.driver)).2,
     visited := [], queue := [(url, 0)], results := [],
     pages := 0, succ := 0, fail := 0, w := (now env w).2, events := [] })

/-- Result assembly at the tail of `crawl` (web_crawler.py lines
931-956): the normal path copies `self.results` and computes stats; the
`except` path records the error and leaves `crawl_result['results']` at
its initial empty value; `close_selenium` runs in the `finally` on both
paths. -/
def crawlFinish (env : Env) (url : Str) (depth : Nat) (useAi : Bool) (t0 : Int)
    (st : LoopSt) (exn : Option Str) : CrawlResult × Crawler × World × List Event :=
  let t1 := (now env st.w).1
  let wF := (now env st.w).2
  let crF : Crawler :=
    { config := st.config, visited := st.visited, queue := st.queue,
      results := st.results, driver := close_selenium env st.driver }
  match exn with
  | Option.none =>
    ({ url := url, depth := depth, use_ai := useAi, start_time := t0,
       pages_crawled := st.pages, success_pages := st.succ,
       failed_pages := st.fail, results := st.results,
       stats_visited := st.visited.length,
       stats_success_rate :=
         if st.pages > 0 then (st.succ : Rat) / (st.pages : Rat) else 0,
       stats_avg_time :=
         if st.pages > 0 then ((t1 - t0 : Int) : Rat) / (st.pages : Rat) else 0,
       end_time := t1, duration := t1 - t0, error := Option.none },
     crF, wF, st.events)
  | some e =>
    ({ url := url, depth := depth, use_ai := useAi, start_time := t0,
       pages_crawled := st.pages, success_pages := st.succ,
       failed_pages := st.fail, results := [],
       stats_visited := 0, stats_success_rate := 0, stats_avg_time := 0,
       end_time := t1, duration := t1 - t0, error := some e },
     crF, wF, st.events)

/-- `WebCrawler.crawl` (web_crawler.py lines 825-956): state reset, the
loop inside `try`, result assembly; an escaped exception is recorded as
`crawl_result['error']` and the dict is returned with the counters
accumulated so far but with its `results` entry never updated from
`self.results`; `close_selenium` runs on every path (`finally`). -/
def crawl (env : Env) (cr : Crawler) (url : Str) (depth : Nat) (useAi : Bool)
    (m? : Option AIModel) (keywords : List Str) (w : World) (fuel : Nat) :
    CrawlResult × Crawler × World × List Event :=
  let s := crawlStart env cr url w
  let out := crawlLoop env depth useAi m? keywords fuel s.2
  crawlFinish env url depth useAi s.1 out.1 out.2

/-! ## Concurrency Coordinator -/

/-- The second-layer URL collection of `crawl_parallel` (web_crawler.py
lines 976-981): pages of the phase-1 result that contain a `links` key
contribute links not in the main crawler's visited set, bounded by
`max_pages`. -/
def collectSecondLayer (visited : List Str) (maxPages : Nat) :
    List PyObj → List Str → Except Str (List Str)
  | [], acc => .ok acc
  | page :: rest, acc => do
    let hasLinks ← pyContains (.str (lit "links")) page
    if hasLinks then do
      let links ← pyGetItemStr page (lit "links")
      match links with
      | .list ls =>
        let acc' ← ls.foldlM
          (fun (a : List Str) link => do
            let lu ← pyGetItemStr link (lit "url")
            match lu with
            | .str lurl =>
              if ¬ memb lurl visited ∧ a.length < maxPages then pure (a ++ [lurl])
              else pure a
            | _ => Except.error (lit "TypeError: non-string link url"))
          acc
        collectSecondLayer visited maxPages rest acc'
      | _ => .error (lit "TypeError: object is not iterable")
    else collectSecondLayer visited maxPages rest acc

/-- Round-robin assignment: the URLs handled by worker `k` out of `nw`
(`temp_crawlers[i % max_workers]`). -/
def workerUrls (urls : List Str) (k nw : Nat) : List Str :=
  ((urls.enum).filter (fun p => p.1 % nw = k)).map Prod.snd

/-- One worker's sequential run over its assigned URLs, reusing its own
crawler instance, keeping only non-empty `result['results']` lists
(web_crawler.py lines 1006-1011). -/
def runWorker (env : Env) (useAi : Bool) (m? : Option AIModel)
    (keywords : List Str) (fuel : Nat) :
    List Str → Crawler → World → List PyObj → List PyObj × Crawler × World
  | [], cr, w, acc => (acc, cr, w)
  | u :: rest, cr, w, acc =>
    let (r, cr', w', _) := crawl env cr u 0 useAi m? keywords w fuel
    let acc' := if !r.results.isEmpty then acc ++ r.results else acc
    runWorker env useAi m? keywords fuel rest cr' w' acc'

/-- All workers in index order (the `as_completed` result order of the
pool is nondeterministic in the source; the merged counters below are
order-independent). -/
def runWorkers (env : Env) (tempCfg : Config) (useAi : Bool)
    (m? : Option AIModel) (keywords : List Str) (fuel : Nat)
    (urls : List Str) (nw : Nat) (w : World) : List PyObj × World :=
  (List.range nw).foldl
    (fun (acc : List PyObj × World) k =>
      let (rs, _, w') := runWorker env useAi m? keywords fuel
        (workerUrls urls k nw) (newCrawler tempCfg) acc.2 []
      (acc.1 ++ rs, w'))
    ([], w)

/-- `'error' not in page` / `'error' in page` counting of the merge step
(web_crawler.py lines 1020-1021). -/
def countByError : List PyObj → Except Str (Nat × Nat)
  | [] => .ok (0, 0)
  | page :: rest => do
    let hasErr ← pyContains (.str (lit "error")) page
    let (s, f) ← countByError rest
    if hasErr then return (s, f + 1) else return (s + 1, f)

/-- `WebCrawler.crawl_parallel` (web_crawler.py lines 958-1023):
sequential phase-1 crawl at depth 0, second-layer collection, a worker
pool of independent crawler instances with `follow_links` disabled, and
the merge of `parallel_results` into the phase-1 dict. -/
def crawl_parallel (env : Env) (cr : Crawler) (url : Str) (depth : Nat)
    (useAi : Bool) (m? : Option AIModel) (keywords : List Str) (w : World)
    (fuel : Nat) (max_workers : Nat) :
    Except Str (CrawlResult × Crawler × World) := do
  let (r1, cr1, w1, _) := crawl env cr url 0 useAi m? keywords w fuel
  let secondLayer ← collectSecondLayer cr1.visited cr1.config.max_pages r1.results []
  if depth > 0 then
    let tempCfg := { cr1.config with follow_links := false }
    let (parallel_results, w2) :=
      runWorkers env tempCfg useAi m? keywords fuel secondLayer max_workers w1
    let (s, f) ← countByError parallel_results
    return ({ r1 with results := r1.results ++ parallel_results,
                      pages_crawled := r1.pages_crawled + parallel_results.length,
                      success_pages := r1.success_pages + s,
                      failed_pages := r1.failed_pages + f },
            cr1, w2)
  else
    return (r1, cr1, w1)

/-! ## Predicates and concrete instances used by the theorems -/

/-- The fetched `(url, depth)` tasks of an event log. -/
def fetchEvents (evs : List Event) : List (Str × Nat) :=
  evs.filterMap (fun e =>
    match e with
    | .fetch u d => some (u, d)
    | _ => Option.none)

/-- Check an enqueue event against the requested depth: pushed at the
parent depth plus one, with the parent strictly below the bound. -/
def enqDepthOk (depth : Nat) (e : Event) : Bool :=
  match e with
  | .fetch _ _ => true
  | .enq _ d pd _ _ => (d == pd + 1) && decide (pd < depth)

/-- Check that an enqueue event pushed a URL that was in neither the
visited set nor the queue at push time. -/
def enqFresh (e : Event) : Bool :=
  match e with
  | .fetch _ _ => true
  | .enq u _ _ vis q => !(memb u vis) && !(memb u (q.map Prod.fst))

/-- Check that a fetch event stayed within the requested depth. -/
def fetchDepthOk (depth : Nat) (e : Event) : Bool :=
  match e with
  | .fetch _ d => decide (d ≤ depth)
  | .enq _ _ _ _ _ => true

/-- ASCII text without brackets: on such input the model agrees with
CPython exactly (brackets can raise `ValueError` from host validation,
and non-ASCII netlocs can raise from NFKC normalization — neither is
modelled). -/
def plainChar (c : Char) : Bool := c.toNat ≤ 127 && c ≠ '[' && c ≠ ']'

def plainStr (s : Str) : Bool := s.all plainChar

/-- Lowercase scheme text: lowercase letters, digits, `+`, `-`, `.`. -/
def isLowerSchemeChar (c : Char) : Bool :=
  (97 ≤ c.toNat && c.toNat ≤ 122) || (48 ≤ c.toNat && c.toNat ≤ 57) ||
  c.toNat = 43 || c.toNat = 45 || c.toNat = 46

/-- A character allowed in the host part of a clean normalized URL
(printable ASCII, none of `/`, `?`, `#`, `[`, `]`). -/
def cleanHostChar (c : Char) : Bool :=
  33 ≤ c.toNat && c.toNat ≤ 126 &&
    c.toNat ≠ 47 && c.toNat ≠ 63 && c.toNat ≠ 35 && c.toNat ≠ 91 && c.toNat ≠ 93

/-- A character allowed in the path part of a clean normalized URL
(printable ASCII, none of `?`, `#`, `;`, `:`). -/
def cleanPathChar (c : Char) : Bool :=
  33 ≤ c.toNat && c.toNat ≤ 126 &&
    c.toNat ≠ 63 && c.toNat ≠ 35 && c.toNat ≠ 59 && c.toNat ≠ 58

/-- Decompose `scheme://host+path` (host delimited as in
`_splitnetloc`). -/
def decompAbs (n : Str) : Str × Str × Str :=
  let s := n.takeWhile (fun c => c ≠ ':')
  let hp := (n.drop s.length).drop 3
  let h := hp.takeWhile (fun c => !(c = '/' || c = '?' || c = '#'))
  (s, h, hp.drop h.length)

/-- A clean absolute URL in normalized shape: lowercase scheme with a
letter first, `://`, non-empty bracket-free host, and a path without
query/fragment/params delimiters that starts with `/` and is not
slash-terminated except for the bare root.  Re-normalizing such a URL is
the identity (`normalize_idempotent_on_clean`); the
`https://x.com/a//` counterexample shows the shape is not always
reached. -/
def cleanNorm (n : Str) : Bool :=
  let s := (decompAbs n).1
  let h := (decompAbs n).2.1
  let p := (decompAbs n).2.2
  (n == s ++ ':' :: '/' :: '/' :: (h ++ p)) &&
  !s.isEmpty && (s.headD ' ').isAlpha && s.all isLowerSchemeChar &&
  !h.isEmpty && h.all cleanHostChar &&
  (p.isEmpty || (p.headD ' ' == '/')) && p.all cleanPathChar &&
  !(decide (p.getLastD ' ' = '/') && !(p == ['/']))

/-- Empty page soup: no video tags, no scripts. -/
def soupEmpty : Soup := { videoTags := [], scripts := [] }

/-- A concrete oracle environment: every page fetch succeeds with a
fixed body that parses to an empty soup, the hash is the identity, no
browser session can be created, regexes match nothing. -/
def envBasic : Env :=
  { md5 := fun s => s
  , createDriver := false
  , quitOk := true
  , render := fun _ => .error (lit "no render")
  , httpGet := fun _ => .ok 200 (lit "<html><body>hello</body></html>")
  , parseHtml := fun _ => soupEmpty
  , reFindall := fun _ _ => []
  , reSearch := fun _ _ => Option.none
  , jsonParse := fun _ => Option.none
  , clock := fun t => Int.ofNat t }

/-- A concrete environment whose network raises on every request. -/
def envDown : Env := { envBasic with httpGet := fun _ => .exn (lit "ConnectionError") }

/-- Lightweight-config crawler used by the concrete runs. -/
def cfgBasic : Config :=
  { default_config with use_selenium := false, download_videos := false }

/-- Empty world. -/
def w0 : World := { fs := [], getLog := [], tick := 0 }

/-- An AI capability whose two methods both raise. -/
def raisingModel : AIModel :=
  { analyze := fun _ _ => .error (lit "boom")
  , summarize_text := fun _ _ _ => .error (lit "boom") }

/-- The PageRecord field names promised by the spec data model
(`{url, title, text, metadata, images, videos, links, timestamp}`);
modelled from the spec for comparison with what `extract_content`
actually returns. -/
def specPageRecordFields : List Str :=
  ["url", "title", "text", "metadata", "images", "videos", "links",
   "timestamp"].map String.data

/-- `cfg'` agrees with `cfg` on every field except possibly
`use_selenium`. -/
def sameButSelenium (cfg cfg' : Config) : Prop :=
  cfg' = cfg ∨ cfg' = { cfg with use_selenium := false }

/-- The state carried by a step outcome (the `except` clause of `crawl`
sees the state as it was when the exception fired). -/
def stepSt : StepOut → LoopSt
  | .cont st => st
  | .halt st _ => st

/-! # Theorems -/

/-! ## Page accounting (C4) and exception behaviour (C2, C3) -/

theorem stepTask_counts (env : Env) (depth : Nat) (useAi : Bool) (m? : Option AIModel)
    (kw : List Str) (st : LoopSt) (cur : Str) (d : Nat) (st' : LoopSt)
    (h : stepTask env depth useAi m? kw st cur d = .cont st')
    (hinv : st.pages = st.succ + st.fail) : st'.pages = st'.succ + st'.fail := by
  unfold stepTask at h
  split at h
  · cases h; exact hinv
  · dsimp only at h
    split at h
    · split at h
      · exact absurd h (by simp)
      · split at h
        · split at h
          · exact absurd h (by simp)
          · split at h
            · split at h
              · exact absurd h (by simp)
              · cases h; simp [hinv]; omega
            · exact absurd h (by simp)
        · cases h; simp [hinv]; omega
    · cases h; simp [hinv]; omega

theorem crawlLoop_counts (env : Env) (depth : Nat) (useAi : Bool) (m? : Option AIModel)
    (kw : List Str) :
    ∀ fuel st, st.pages = st.succ + st.fail →
      ∀ stF, crawlLoop env depth useAi m? kw fuel st = (stF, Option.none) →
        stF.pages = stF.succ + stF.fail := by
  intro fuel
  induction fuel with
  | zero =>
    intro st hinv stF h
    simp only [crawlLoop] at h
    injection h with h1 h2
    subst h1; exact hinv
  | succ n ih =>
    intro st hinv stF h
    simp only [crawlLoop] at h
    split at h
    · injection h with h1 h2; subst h1; exact hinv
    · split at h
      · split at h
        · next st' heq =>
          exact ih st' (stepTask_counts _ _ _ _ _ _ _ _ _ heq hinv) stF h
        · next st' e heq =>
          injection h with h1 h2; cases h2
      · injection h with h1 h2; subst h1; exact hinv

theorem crawl_counts (env : Env) (cr : Crawler) (url : Str) (depth : Nat)
    (useAi : Bool) (m? : Option AIModel) (kw : List Str) (w : World) (fuel : Nat)
    (h : (crawl env cr url depth useAi m? kw w fuel).1.error = Option.none) :
    (crawl env cr url depth useAi m? kw w fuel).1.pages_crawled
      = (crawl env cr url depth useAi m? kw w fuel).1.success_pages
        + (crawl env cr url depth useAi m? kw w fuel).1.failed_pages := by
  unfold crawl at *
  rcases hloop : crawlLoop env depth useAi m? kw fuel (crawlStart env cr url w).2
    with ⟨stF, exn⟩
  simp only [hloop] at h ⊢
  cases exn with
  | none =>
    have := crawlLoop_counts env depth useAi m? kw fuel (crawlStart env cr url w).2
      rfl stF hloop
    simpa [crawlFinish] using this
  | some e =>
    simp [crawlFinish] at h

theorem countByError_sum :
    ∀ l s f, countByError l = .ok (s, f) → s + f = l.length := by
  intro l
  induction l with
  | nil =>
    intro s f h
    simp only [countByError] at h
    cases h
    simp
  | cons page rest ih =>
    intro s f h
    simp only [countByError, bind, Except.bind] at h
    split at h
    · cases h
    · split at h
      · cases h
      · next sf heq =>
        rcases sf with ⟨s', f'⟩
        split at h <;>
          · injection h with h1
            injection h1 with h1 h2
            subst h1; subst h2
            have := ih s' f' heq
            simp [List.length_cons]
            omega

theorem crawl_parallel_counts (env : Env) (cr : Crawler) (url : Str) (depth : Nat)
    (useAi : Bool) (m? : Option AIModel) (kw : List Str) (w : World) (fuel nw : Nat)
    (r : CrawlResult) (cr' : Crawler) (w' : World)
    (hp : crawl_parallel env cr url depth useAi m? kw w fuel nw = .ok (r, cr', w'))
    (h : r.error = Option.none) :
    r.pages_crawled = r.success_pages + r.failed_pages := by
  unfold crawl_parallel at hp
  rcases hc : crawl env cr url 0 useAi m? kw w fuel with ⟨r1, cr1, w1, ev1⟩
  rw [hc] at hp
  simp only [bind, Except.bind] at hp
  split at hp
  · cases hp
  · next sl heq =>
    split at hp
    · rcases hrw : runWorkers env { cr1.config with follow_links := false } useAi m? kw
        fuel sl nw w1 with ⟨prs, w2⟩
      rw [hrw] at hp
      simp only at hp
      split at hp
      · cases hp
      · next sf heq2 =>
        rcases sf with ⟨s, f⟩
        simp only [pure, Except.pure] at hp
        injection hp with h1
        injection h1 with hr h2
        subst hr
        have hcount := countByError_sum prs s f heq2
        have h1 : r1.error = Option.none := h
        have := crawl_counts env cr url 0 useAi m? kw w fuel (by rw [hc]; exact h1)
        rw [hc] at this
        simp only at this ⊢
        omega
    · simp only [pure, Except.pure] at hp
      injection hp with h1
      injection h1 with hr h2
      subst hr
      have := crawl_counts env cr url 0 useAi m? kw w fuel (by rw [hc]; exact h)
      rw [hc] at this
      exact this

/-- C1 (code_bug): the spec's extractor contract is
`extract(url, raw_content) -> PageRecord` with fields
`url, title, text, metadata, images, videos, links, timestamp`, but
`extract_content` always returns a bare Python list of video dicts; at
the failing input (any page without discoverable videos) the result is
the empty list and carries none of the PageRecord fields.  `crawl`
itself and `test_video_crawling.py` consume the result as a dict, so
the spec records the intent and the code is the slip. -/
theorem c1_extract_content_not_a_page_record :
    (∀ env cfg url html w, ∃ vs w',
        extractPage env cfg url html w = (PyObj.list vs, w')) ∧
    (extractPage envBasic cfgBasic (lit "https://example.com/")
        (lit "<html></html>") w0).1 = PyObj.list [] ∧
    (specPageRecordFields.all (fun f =>
        match pyContains (PyObj.str f)
            (extractPage envBasic cfgBasic (lit "https://example.com/")
              (lit "<html></html>") w0).1 with
        | .ok b => !b
        | .error _ => true)) = true := by
  refine ⟨fun env cfg url html w => ⟨_, _, rfl⟩, rfl, rfl⟩

/-- C2 (corrected): `crawl` always returns a CrawlResult; an exception
in the loop is caught and recorded as the `error` field with the
counters accumulated so far, but the returned `results` list is left
empty — the accumulated records stay only on `self.results`
(`crawl_result['results']` is assigned solely on the normal path). -/
theorem c2_crawl_catches_and_returns_partial_counters
    (env : Env) (cr : Crawler) (url : Str) (depth : Nat) (useAi : Bool)
    (m? : Option AIModel) (kw : List Str) (w : World) (fuel : Nat) :
    ((crawl env cr url depth useAi m? kw w fuel).1.error = Option.none ∧
      (crawl env cr url depth useAi m? kw w fuel).1.results
        = (crawl env cr url depth useAi m? kw w fuel).2.1.results) ∨
    (∃ e, (crawl env cr url depth useAi m? kw w fuel).1.error = some e ∧
      (crawl env cr url depth useAi m? kw w fuel).1.results = []) := by
  unfold crawl
  rcases hloop : crawlLoop env depth useAi m? kw fuel (crawlStart env cr url w).2
    with ⟨stF, exn⟩
  simp only [hloop]
  cases exn with
  | none => exact Or.inl ⟨rfl, rfl⟩
  | some e => exact Or.inr ⟨e, rfl, rfl⟩

/-- C2 counterexample: a depth-1 crawl whose first fetch succeeds
accumulates one PageRecord (visible on the crawler's `results`
attribute) and then raises at the link-following step; the returned
CrawlResult records the error and `success_pages = 1`, but its
`results` list is empty — the accumulated record is not returned. -/
theorem c2_counterexample_results_dropped :
    (crawl envBasic (newCrawler cfgBasic) (lit "https://example.com/") 1 false
      Option.none [] w0 5).1.error.isSome = true ∧
    (crawl envBasic (newCrawler cfgBasic) (lit "https://example.com/") 1 false
      Option.none [] w0 5).1.success_pages = 1 ∧
    (crawl envBasic (newCrawler cfgBasic) (lit "https://example.com/") 1 false
      Option.none [] w0 5).1.results.isEmpty = true ∧
    (crawl envBasic (newCrawler cfgBasic) (lit "https://example.com/") 1 false
      Option.none [] w0 5).2.1.results.length = 1 := by
  refine ⟨rfl, rfl, rfl, rfl⟩

/-- C3 (code_bug): with `use_ai` enabled and a capability supplied, the
orchestrator is supposed to record `{status: error}` and keep crawling
when the capability raises — but `filter_with_ai` receives the bare list
returned by `extract_content`, its dict accesses raise before the
capability is ever called, its own error handler raises again
(`content['ai_analysis'] = ...` on a list), and the crawl aborts: on a
successful fetch the returned CrawlResult has an `error`,
`success_pages = 0`, and no `ai_analysis` anywhere. -/
theorem c3_ai_failure_aborts_crawl :
    (∀ env w m kw vs, ∃ e,
        (filter_with_ai env w (PyObj.list vs) (some m) kw).1 = .error e) ∧
    (crawl envBasic (newCrawler cfgBasic) (lit "https://example.com/") 0 true
      (some raisingModel) [] w0 5).1.error.isSome = true ∧
    (crawl envBasic (newCrawler cfgBasic) (lit "https://example.com/") 0 true
      (some raisingModel) [] w0 5).1.success_pages = 0 ∧
    (crawl envBasic (newCrawler cfgBasic) (lit "https://example.com/") 0 true
      (some raisingModel) [] w0 5).1.pages_crawled = 1 ∧
    (crawl envBasic (newCrawler cfgBasic) (lit "https://example.com/") 0 true
      (some raisingModel) [] w0 5).1.results.isEmpty = true := by
  exact ⟨fun env w m kw vs => ⟨_, rfl⟩, rfl, rfl, rfl, rfl⟩

/-- C4 (corrected): `pages_crawled == success_pages + failed_pages`
holds for every CrawlResult of `crawl` and `crawl_parallel` that
terminates without a recorded `error`; the exception path can break it
(see the counterexample). -/
theorem c4_page_accounting_when_no_error :
    (∀ env cr url depth useAi m? kw w fuel,
      (crawl env cr url depth useAi m? kw w fuel).1.error = Option.none →
      (crawl env cr url depth useAi m? kw w fuel).1.pages_crawled
        = (crawl env cr url depth useAi m? kw w fuel).1.success_pages
          + (crawl env cr url depth useAi m? kw w fuel).1.failed_pages) ∧
    (∀ env cr url depth useAi m? kw w fuel nw r cr' w',
      crawl_parallel env cr url depth useAi m? kw w fuel nw = .ok (r, cr', w') →
      r.error = Option.none →
      r.pages_crawled = r.success_pages + r.failed_pages) := by
  exact ⟨fun env cr url depth useAi m? kw w fuel h =>
          crawl_counts env cr url depth useAi m? kw w fuel h,
        fun env cr url depth useAi m? kw w fuel nw r cr' w' hp h =>
          crawl_parallel_counts env cr url depth useAi m? kw w fuel nw r cr' w' hp h⟩

theorem c4_page_accounting_when_no_error_witness :
    ((crawl envDown (newCrawler cfgBasic) (lit "https://example.com/") 0 false
        Option.none [] w0 5).1.pages_crawled
      = (crawl envDown (newCrawler cfgBasic) (lit "https://example.com/") 0 false
          Option.none [] w0 5).1.success_pages
        + (crawl envDown (newCrawler cfgBasic) (lit "https://example.com/") 0 false
            Option.none [] w0 5).1.failed_pages) ∧
    (∀ r cr' w', crawl_parallel envDown (newCrawler cfgBasic)
        (lit "https://example.com/") 1 false Option.none [] w0 5 4 = .ok (r, cr', w') →
      r.error = Option.none → r.pages_crawled = r.success_pages + r.failed_pages) :=
  ⟨c4_page_accounting_when_no_error.1 envDown (newCrawler cfgBasic)
      (lit "https://example.com/") 0 false Option.none [] w0 5 rfl,
   fun r cr' w' hp h =>
     c4_page_accounting_when_no_error.2 envDown (newCrawler cfgBasic)
       (lit "https://example.com/") 1 false Option.none [] w0 5 4 r cr' w' hp h⟩

/-- C4 counterexample: an AI-enabled crawl whose first fetch succeeds
raises between the `pages_crawled` increment and the success/failure
increments, so the returned (error-carrying) CrawlResult has
`pages_crawled = 1` but `success_pages + failed_pages = 0`. -/
theorem c4_counterexample_ai_abort :
    (crawl envBasic (newCrawler cfgBasic) (lit "https://example.com/") 0 true
      (some raisingModel) [] w0 5).1.pages_crawled = 1 ∧
    (crawl envBasic (newCrawler cfgBasic) (lit "https://example.com/") 0 true
      (some raisingModel) [] w0 5).1.success_pages
      + (crawl envBasic (newCrawler cfgBasic) (lit "https://example.com/") 0 true
          (some raisingModel) [] w0 5).1.failed_pages = 0 := by
  exact ⟨rfl, rfl⟩

/-! ## Configuration mutation (C7) -/

theorem sameButSelenium_rfl (cfg : Config) : sameButSelenium cfg cfg := Or.inl rfl

theorem sameButSelenium_trans {a b c : Config}
    (h1 : sameButSelenium a b) (h2 : sameButSelenium b c) : sameButSelenium a c := by
  cases h1 with
  | inl h => subst h; exact h2
  | inr h =>
    subst h
    cases h2 with
    | inl h => subst h; exact Or.inr rfl
    | inr h => subst h; exact Or.inr rfl

theorem init_selenium_sbs (env : Env) (cfg : Config) (driver : Option Unit) :
    sameButSelenium cfg (init_selenium env cfg driver).1 := by
  unfold init_selenium
  split
  · split
    · exact Or.inl rfl
    · exact Or.inr rfl
  · exact Or.inl rfl

theorem fetch_page_sbs (env : Env) (cfg : Config) (driver : Option Unit)
    (w : World) (url : Str) :
    sameButSelenium cfg (fetch_page env cfg driver w url).2.1 := by
  unfold fetch_page
  split
  · dsimp only
    split
    · split
      · exact init_selenium_sbs env cfg driver
      · exact Or.inl rfl
    · split
      · split
        · exact init_selenium_sbs env cfg driver
        · exact Or.inl rfl
      · split
        · exact init_selenium_sbs env cfg driver
        · exact Or.inl rfl
  · exact Or.inl rfl

theorem stepTask_sbs (env : Env) (depth : Nat) (useAi : Bool) (m? : Option AIModel)
    (kw : List Str) (st : LoopSt) (cur : Str) (d : Nat) :
    sameButSelenium st.config
      (stepSt (stepTask env depth useAi m? kw st cur d)).config := by
  unfold stepTask
  split
  · exact Or.inl rfl
  · dsimp only
    split
    · split
      · exact fetch_page_sbs env st.config st.driver st.w cur
      · split
        · split
          · exact fetch_page_sbs env st.config st.driver st.w cur
          · split
            · split
              · exact fetch_page_sbs env st.config st.driver st.w cur
              · exact fetch_page_sbs env st.config st.driver st.w cur
            · exact fetch_page_sbs env st.config st.driver st.w cur
        · exact fetch_page_sbs env st.config st.driver st.w cur
    · exact fetch_page_sbs env st.config st.driver st.w cur

theorem crawlLoop_sbs (env : Env) (depth : Nat) (useAi : Bool) (m? : Option AIModel)
    (kw : List Str) :
    ∀ fuel st stF exn, crawlLoop env depth useAi m? kw fuel st = (stF, exn) →
      sameButSelenium st.config stF.config := by
  intro fuel
  induction fuel with
  | zero =>
    intro st stF exn h
    simp only [crawlLoop] at h
    injection h with h1 h2
    subst h1; exact Or.inl rfl
  | succ n ih =>
    intro st stF exn h
    simp only [crawlLoop] at h
    rcases hq : st.queue with _ | ⟨⟨cur, d⟩, rest⟩
    · rw [hq] at h
      injection h with h1 h2; subst h1; exact Or.inl rfl
    · rw [hq] at h
      dsimp only at h
      split at h
      · rcases hstep : stepTask env depth useAi m? kw { st with queue := rest } cur d
          with st' | ⟨st', e⟩ <;> rw [hstep] at h
        · have h1 := stepTask_sbs env depth useAi m? kw { st with queue := rest } cur d
          rw [hstep] at h1
          exact sameButSelenium_trans h1 (ih st' stF exn h)
        · injection h with h1 h2
          subst h1
          have h1 := stepTask_sbs env depth useAi m? kw { st with queue := rest } cur d
          rw [hstep] at h1
          exact h1
      · injection h with h1 h2; subst h1; exact Or.inl rfl

theorem crawl_sbs (env : Env) (cr : Crawler) (url : Str) (depth : Nat)
    (useAi : Bool) (m? : Option AIModel) (kw : List Str) (w : World) (fuel : Nat) :
    sameButSelenium cr.config (crawl env cr url depth useAi m? kw w fuel).2.1.config := by
  unfold crawl
  rcases hloop : crawlLoop env depth useAi m? kw fuel (crawlStart env cr url w).2
    with ⟨stF, exn⟩
  simp only [hloop]
  have hstart : sameButSelenium cr.config (crawlStart env cr url w).2.config := by
    unfold crawlStart
    dsimp only
    split
    · exact init_selenium_sbs env cr.config cr.driver
    · exact Or.inl rfl
  have hloop' := crawlLoop_sbs env depth useAi m? kw fuel _ stF exn hloop
  have := sameButSelenium_trans hstart hloop'
  cases exn <;> simpa [crawlFinish] using this

/-- C7 (corrected): the configuration dict is left untouched by every
operation except that `initialize_selenium` writes
`use_selenium = False` when the browser session cannot be created (the
documented permanent degrade to the lightweight fetcher); every other
field survives every operation unchanged. -/
theorem c7_config_mutations_limited_to_use_selenium :
    (∀ env cfg driver, sameButSelenium cfg (init_selenium env cfg driver).1) ∧
    (∀ env cfg driver w url,
      sameButSelenium cfg (fetch_page env cfg driver w url).2.1) ∧
    (∀ env cr url depth useAi m? kw w fuel,
      sameButSelenium cr.config
        (crawl env cr url depth useAi m? kw w fuel).2.1.config) ∧
    (∀ env cr url depth useAi m? kw w fuel nw r cr' w',
      crawl_parallel env cr url depth useAi m? kw w fuel nw = .ok (r, cr', w') →
      sameButSelenium cr.config cr'.config) := by
  refine ⟨init_selenium_sbs, fetch_page_sbs, crawl_sbs, ?_⟩
  intro env cr url depth useAi m? kw w fuel nw r cr' w' hp
  unfold crawl_parallel at hp
  rcases hc : crawl env cr url 0 useAi m? kw w fuel with ⟨r1, cr1, w1, ev1⟩
  rw [hc] at hp
  have hcr1 : sameButSelenium cr.config cr1.config := by
    have := crawl_sbs env cr url 0 useAi m? kw w fuel
    rw [hc] at this
    exact this
  simp only [bind, Except.bind] at hp
  split at hp
  · cases hp
  · split at hp
    · rcases hrw : runWorkers env { cr1.config with follow_links := false } useAi m? kw
        fuel _ nw w1 with ⟨prs, w2⟩
      rw [hrw] at hp
      simp only at hp
      split at hp
      · cases hp
      · next sf heq2 =>
        rcases sf with ⟨s, f⟩
        simp only [pure, Except.pure] at hp
        injection hp with h1
        injection h1 with hr h2
        injection h2 with h2 h3
        subst h2
        exact hcr1
    · simp only [pure, Except.pure] at hp
      injection hp with h1
      injection h1 with hr h2
      injection h2 with h2 h3
      subst h2
      exact hcr1

theorem c7_config_mutations_limited_to_use_selenium_witness :
    sameButSelenium cfgBasic (init_selenium envBasic cfgBasic Option.none).1 ∧
    (∀ r cr' w', crawl_parallel envBasic (newCrawler cfgBasic)
        (lit "https://example.com/") 0 false Option.none [] w0 3 4 = .ok (r, cr', w') →
      sameButSelenium (newCrawler cfgBasic).config cr'.config) :=
  ⟨c7_config_mutations_limited_to_use_selenium.1 envBasic cfgBasic Option.none,
   fun r cr' w' hp =>
     c7_config_mutations_limited_to_use_selenium.2.2.2 envBasic (newCrawler cfgBasic)
       (lit "https://example.com/") 0 false Option.none [] w0 3 4 r cr' w' hp⟩

/-- C7 counterexample: with a failing driver creation,
`initialize_selenium` mutates the configuration supplied at
construction: `use_selenium` flips from `True` to `False`. -/
theorem c7_counterexample_selenium_fallback_mutates_config :
    (init_selenium envBasic default_config Option.none).1.use_selenium = false ∧
    default_config.use_selenium = true :=
  ⟨rfl, rfl⟩

/-! ## Depth bound (C5) and dedup (C6) -/

theorem memb_eq_true_iff (s : Str) (l : List Str) : memb s l = true ↔ s ∈ l := by
  induction l with
  | nil => simp [memb]
  | cons a t ih =>
    simp only [memb, List.any_cons] at *
    constructor
    · intro h
      rcases Bool.or_eq_true_iff.mp h with h | h
      · exact (by simpa using (decide_eq_true_eq.mp h)) ▸ List.mem_cons_self a t
      · exact List.mem_cons_of_mem a (ih.mp h)
    · intro h
      rcases List.mem_cons.mp h with h | h
      · subst h; simp
      · exact Bool.or_eq_true_iff.mpr (Or.inr (ih.mpr h))

theorem linksLoop_all (P : Event → Bool) (vis : List Str) (d : Nat)
    (hP : ∀ u q0, memb u vis = false → memb u (q0.map Prod.fst) = false →
      P (Event.enq u (d + 1) d vis q0) = true) :
    ∀ ls q evs q' evs', evs.all P = true →
      linksLoop vis d ls q evs = .ok (q', evs') → evs'.all P = true := by
  intro ls
  induction ls with
  | nil =>
    intro q evs q' evs' hall h
    simp only [linksLoop] at h
    cases h; exact hall
  | cons link rest ih =>
    intro q evs q' evs' hall h
    simp only [linksLoop, bind, Except.bind] at h
    rcases hlu : pyGetItemStr link (lit "url") with e | lu <;> rw [hlu] at h
    · cases h
    · rcases lu with lurl | n | b | _ | xs | es
      case str =>
        dsimp only at h
        split at h
        · next hguard =>
          refine ih _ _ _ _ ?_ h
          have h1 : memb lurl vis = false :=
            Bool.eq_false_iff.mpr (fun hx => hguard.1 hx)
          have h2 : memb lurl (q.map Prod.fst) = false :=
            Bool.eq_false_iff.mpr (fun hx => hguard.2 hx)
          rw [List.all_append, hall]
          simp [hP lurl q h1 h2]
        · exact ih _ _ _ _ hall h
      all_goals cases h

theorem linksLoop_fetchEvents (vis : List Str) (d : Nat) :
    ∀ ls q evs q' evs', linksLoop vis d ls q evs = .ok (q', evs') →
      fetchEvents evs' = fetchEvents evs := by
  intro ls
  induction ls with
  | nil =>
    intro q evs q' evs' h
    simp only [linksLoop] at h
    cases h; rfl
  | cons link rest ih =>
    intro q evs q' evs' h
    simp only [linksLoop, bind, Except.bind] at h
    rcases hlu : pyGetItemStr link (lit "url") with e | lu <;> rw [hlu] at h
    · cases h
    · rcases lu with lurl | n | b | _ | xs | es
      case str =>
        dsimp only at h
        split at h
        · have := ih _ _ _ _ h
          rw [this]
          simp [fetchEvents, List.filterMap_append]
        · exact ih _ _ _ _ h
      all_goals cases h

/-- Structural description of one loop iteration: either the task was
skipped (state returned untouched apart from the pop done by the
caller), or the URL was recorded as visited and fetched, with the event
log extended by the fetch event and possibly by the enqueue events of a
successful link loop run from a page at depth strictly below the
bound. -/
theorem stepTask_shape (env : Env) (depth : Nat) (useAi : Bool) (m? : Option AIModel)
    (kw : List Str) (st : LoopSt) (cur : Str) (d : Nat) (out : StepOut)
    (h : stepTask env depth useAi m? kw st cur d = out) :
    (out = .cont st)
  ∨ (¬(memb cur st.visited = true ∨ d > depth) ∧
     (stepSt out).visited = cur :: st.visited ∧
     ((stepSt out).events = st.events ++ [Event.fetch cur d]
      ∨ (∃ ls q', d < depth ∧
          linksLoop (cur :: st.visited) d ls st.queue (st.events ++ [Event.fetch cur d])
            = .ok (q', (stepSt out).events)))) := by
  unfold stepTask at h
  split at h
  · subst h; exact Or.inl rfl
  · next hskip =>
    dsimp only at h
    refine Or.inr ⟨hskip, ?_⟩
    split at h
    · split at h
      · subst h; exact ⟨rfl, Or.inl rfl⟩
      · split at h
        · next hfol =>
          split at h
          · subst h; exact ⟨rfl, Or.inl rfl⟩
          · split at h
            · split at h
              · subst h; exact ⟨rfl, Or.inl rfl⟩
              · next q' evs' heq =>
                subst h
                exact ⟨rfl, Or.inr ⟨_, _, hfol.2, heq⟩⟩
            · subst h; exact ⟨rfl, Or.inl rfl⟩
        · subst h; exact ⟨rfl, Or.inl rfl⟩
    · subst h; exact ⟨rfl, Or.inl rfl⟩

theorem stepTask_ev5 (env : Env) (depth : Nat) (useAi : Bool) (m? : Option AIModel)
    (kw : List Str) (st : LoopSt) (cur : Str) (d : Nat) (out : StepOut)
    (h : stepTask env depth useAi m? kw st cur d = out)
    (hall : st.events.all (fun e => fetchDepthOk depth e && enqDepthOk depth e) = true) :
    ((stepSt out).events).all
      (fun e => fetchDepthOk depth e && enqDepthOk depth e) = true := by
  rcases stepTask_shape env depth useAi m? kw st cur d out h with hc | ⟨hskip, hvis, hev⟩
  · subst hc; exact hall
  · have hd : d ≤ depth := by
      rcases Nat.lt_or_ge depth d with h1 | h1
      · exact absurd (Or.inr h1) hskip
      · exact h1
    have hall2 : (st.events ++ [Event.fetch cur d]).all
        (fun e => fetchDepthOk depth e && enqDepthOk depth e) = true := by
      rw [List.all_append, hall]
      simp [fetchDepthOk, enqDepthOk, hd]
    rcases hev with hev | ⟨ls, q', hlt, heq⟩
    · rw [hev]; exact hall2
    · refine linksLoop_all _ _ d ?_ _ _ _ _ _ hall2 heq
      intro u q0 h1 h2
      simp [fetchDepthOk, enqDepthOk, hlt]

theorem crawlLoop_ev5 (env : Env) (depth : Nat) (useAi : Bool) (m? : Option AIModel)
    (kw : List Str) :
    ∀ fuel st stF exn,
      st.events.all (fun e => fetchDepthOk depth e && enqDepthOk depth e) = true →
      crawlLoop env depth useAi m? kw fuel st = (stF, exn) →
      stF.events.all (fun e => fetchDepthOk depth e && enqDepthOk depth e) = true := by
  intro fuel
  induction fuel with
  | zero =>
    intro st stF exn hall h
    simp only [crawlLoop] at h
    injection h with h1 h2; subst h1; exact hall
  | succ n ih =>
    intro st stF exn hall h
    simp only [crawlLoop] at h
    rcases hq : st.queue with _ | ⟨⟨cur, d⟩, rest⟩
    · rw [hq] at h
      injection h with h1 h2; subst h1; exact hall
    · rw [hq] at h
      dsimp only at h
      split at h
      · rcases hstep : stepTask env depth useAi m? kw { st with queue := rest } cur d
          with st' | ⟨st', e⟩ <;> rw [hstep] at h
        · have h1 := stepTask_ev5 env depth useAi m? kw { st with queue := rest } cur d
            _ hstep hall
          exact ih st' stF exn h1 h
        · injection h with h1 h2
          subst h1
          exact stepTask_ev5 env depth useAi m? kw { st with queue := rest } cur d
            _ hstep hall
      · injection h with h1 h2; subst h1; exact hall

theorem crawl_ev5 (env : Env) (cr : Crawler) (url : Str) (depth : Nat)
    (useAi : Bool) (m? : Option AIModel) (kw : List Str) (w : World) (fuel : Nat) :
    ((crawl env cr url depth useAi m? kw w fuel).2.2.2).all
      (fun e => fetchDepthOk depth e && enqDepthOk depth e) = true := by
  unfold crawl
  rcases hloop : crawlLoop env depth useAi m? kw fuel (crawlStart env cr url w).2
    with ⟨stF, exn⟩
  simp only [hloop]
  have := crawlLoop_ev5 env depth useAi m? kw fuel (crawlStart env cr url w).2
    stF exn rfl hloop
  cases exn <;> simpa [crawlFinish] using this

/-- C5 (confirmed): a popped task is fetched only when its depth is
within the requested bound (every fetch event satisfies `d ≤ depth`);
links are enqueued only from pages at depth strictly below the bound and
always at the parent depth plus one; and a task whose depth exceeds the
bound is skipped silently — the loop continues exactly as if only the
pop had happened (no fetch, no error, no counter change). -/
theorem c5_depth_bound :
    (∀ env cr url depth useAi m? kw w fuel,
      ((crawl env cr url depth useAi m? kw w fuel).2.2.2).all
        (fun e => fetchDepthOk depth e && enqDepthOk depth e) = true) ∧
    (∀ env depth useAi m? kw fuel st cur d rest,
      st.queue = (cur, d) :: rest → d > depth →
      st.visited.length < st.config.max_pages →
      crawlLoop env depth useAi m? kw (fuel + 1) st
        = crawlLoop env depth useAi m? kw fuel { st with queue := rest }) := by
  constructor
  · exact crawl_ev5
  · intro env depth useAi m? kw fuel st cur d rest hq hd hlen
    conv_lhs => rw [crawlLoop]
    rw [hq]
    dsimp only
    rw [if_pos hlen]
    have hstep : stepTask env depth useAi m? kw { st with queue := rest } cur d
        = .cont { st with queue := rest } := by
      unfold stepTask
      rw [if_pos (Or.inr hd)]
    rw [hstep]

theorem c5_depth_bound_witness :
    ((crawl envBasic (newCrawler cfgBasic) (lit "https://example.com/") 1 false
        Option.none [] w0 5).2.2.2).all
      (fun e => fetchDepthOk 1 e && enqDepthOk 1 e) = true ∧
    crawlLoop envBasic 1 false Option.none [] 3
        { config := cfgBasic, driver := Option.none, visited := [],
          queue := [(lit "https://example.com/deep", 2)], results := [],
          pages := 0, succ := 0, fail := 0, w := w0, events := [] }
      = crawlLoop envBasic 1 false Option.none [] 2
        { config := cfgBasic, driver := Option.none, visited := [],
          queue := [], results := [],
          pages := 0, succ := 0, fail := 0, w := w0, events := [] } :=
  ⟨c5_depth_bound.1 envBasic (newCrawler cfgBasic) (lit "https://example.com/") 1
      false Option.none [] w0 5,
   c5_depth_bound.2 envBasic 1 false Option.none [] 2
     { config := cfgBasic, driver := Option.none, visited := [],
       queue := [(lit "https://example.com/deep", 2)], results := [],
       pages := 0, succ := 0, fail := 0, w := w0, events := [] }
     (lit "https://example.com/deep") 2 [] rfl (by decide) (by decide)⟩

theorem fetchEvents_append (a b : List Event) :
    fetchEvents (a ++ b) = fetchEvents a ++ fetchEvents b := by
  simp [fetchEvents, List.filterMap_append]

theorem stepTask_inv6 (env : Env) (depth : Nat) (useAi : Bool) (m? : Option AIModel)
    (kw : List Str) (st : LoopSt) (cur : Str) (d : Nat) (out : StepOut)
    (h : stepTask env depth useAi m? kw st cur d = out)
    (h1 : st.visited.Nodup)
    (h2 : ((fetchEvents st.events).map Prod.fst).Nodup)
    (h3 : ∀ u ∈ (fetchEvents st.events).map Prod.fst, u ∈ st.visited)
    (h4 : st.events.all enqFresh = true) :
    (stepSt out).visited.Nodup ∧
    ((fetchEvents (stepSt out).events).map Prod.fst).Nodup ∧
    (∀ u ∈ (fetchEvents (stepSt out).events).map Prod.fst, u ∈ (stepSt out).visited) ∧
    (stepSt out).events.all enqFresh = true := by
  rcases stepTask_shape env depth useAi m? kw st cur d out h with hc | ⟨hskip, hvis, hev⟩
  · subst hc; exact ⟨h1, h2, h3, h4⟩
  · have hcur : cur ∉ st.visited := by
      intro hx
      exact hskip (Or.inl ((memb_eq_true_iff cur st.visited).mpr hx))
    have hcurf : cur ∉ (fetchEvents st.events).map Prod.fst := fun hx => hcur (h3 cur hx)
    have hfe : fetchEvents (stepSt out).events
        = fetchEvents st.events ++ [(cur, d)] := by
      rcases hev with hev | ⟨ls, q', hlt, heq⟩
      · rw [hev, fetchEvents_append]; rfl
      · rw [linksLoop_fetchEvents _ _ _ _ _ _ _ heq, fetchEvents_append]; rfl
    have hnodup : ((fetchEvents (stepSt out).events).map Prod.fst).Nodup := by
      rw [hfe]
      simp only [List.map_append, List.map_cons, List.map_nil]
      rw [List.nodup_append]
      exact ⟨h2, List.nodup_singleton cur, by simpa using hcurf⟩
    have hmem : ∀ u ∈ (fetchEvents (stepSt out).events).map Prod.fst,
        u ∈ (stepSt out).visited := by
      intro u hu
      rw [hfe] at hu
      simp only [List.map_append, List.map_cons, List.map_nil, List.mem_append,
        List.mem_cons, List.not_mem_nil, or_false] at hu
      rw [hvis]
      rcases hu with hu | hu
      · exact List.mem_cons_of_mem cur (h3 u hu)
      · simp [hu]
    have hall2 : (st.events ++ [Event.fetch cur d]).all enqFresh = true := by
      rw [List.all_append, h4]
      simp [enqFresh]
    have hfresh : (stepSt out).events.all enqFresh = true := by
      rcases hev with hev | ⟨ls, q', hlt, heq⟩
      · rw [hev]; exact hall2
      · refine linksLoop_all enqFresh _ d ?_ _ _ _ _ _ hall2 heq
        intro u q0 hu hq
        simp [enqFresh, hu, hq]
    refine ⟨?_, hnodup, hmem, hfresh⟩
    rw [hvis]
    exact List.nodup_cons.mpr ⟨hcur, h1⟩

theorem crawlLoop_inv6 (env : Env) (depth : Nat) (useAi : Bool) (m? : Option AIModel)
    (kw : List Str) :
    ∀ fuel st stF exn,
      st.visited.Nodup →
      ((fetchEvents st.events).map Prod.fst).Nodup →
      (∀ u ∈ (fetchEvents st.events).map Prod.fst, u ∈ st.visited) →
      st.events.all enqFresh = true →
      crawlLoop env depth useAi m? kw fuel st = (stF, exn) →
      stF.visited.Nodup ∧ ((fetchEvents stF.events).map Prod.fst).Nodup ∧
        stF.events.all enqFresh = true := by
  intro fuel
  induction fuel with
  | zero =>
    intro st stF exn h1 h2 h3 h4 h
    simp only [crawlLoop] at h
    injection h with ha hb; subst ha; exact ⟨h1, h2, h4⟩
  | succ n ih =>
    intro st stF exn h1 h2 h3 h4 h
    simp only [crawlLoop] at h
    rcases hq : st.queue with _ | ⟨⟨cur, d⟩, rest⟩
    · rw [hq] at h
      injection h with ha hb; subst ha; exact ⟨h1, h2, h4⟩
    · rw [hq] at h
      dsimp only at h
      split at h
      · rcases hstep : stepTask env depth useAi m? kw { st with queue := rest } cur d
          with st' | ⟨st', e⟩ <;> rw [hstep] at h
        · have hi := stepTask_inv6 env depth useAi m? kw { st with queue := rest } cur d
            _ hstep h1 h2 h3 h4
          exact ih st' stF exn hi.1 hi.2.1 hi.2.2.1 hi.2.2.2 h
        · injection h with ha hb
          subst ha
          have hi := stepTask_inv6 env depth useAi m? kw { st with queue := rest } cur d
            _ hstep h1 h2 h3 h4
          exact ⟨hi.1, hi.2.1, hi.2.2.2⟩
      · injection h with ha hb; subst ha; exact ⟨h1, h2, h4⟩

/-- C6 (confirmed): within one `crawl()` invocation the visited set
never holds a URL twice, a URL is fetched at most once (the fetched-URL
log is duplicate-free), and every enqueue happened for a URL that was in
neither the visited set nor the queue at push time. -/
theorem c6_visited_dedup_and_single_fetch (env : Env) (cr : Crawler) (url : Str)
    (depth : Nat) (useAi : Bool) (m? : Option AIModel) (kw : List Str) (w : World)
    (fuel : Nat) :
    (crawl env cr url depth useAi m? kw w fuel).2.1.visited.Nodup ∧
    ((fetchEvents (crawl env cr url depth useAi m? kw w fuel).2.2.2).map
        Prod.fst).Nodup ∧
    ((crawl env cr url depth useAi m? kw w fuel).2.2.2).all enqFresh = true := by
  unfold crawl
  rcases hloop : crawlLoop env depth useAi m? kw fuel (crawlStart env cr url w).2
    with ⟨stF, exn⟩
  simp only [hloop]
  have := crawlLoop_inv6 env depth useAi m? kw fuel (crawlStart env cr url w).2
    stF exn List.nodup_nil (by simp [crawlStart, fetchEvents])
    (by simp [crawlStart, fetchEvents]) rfl hloop
  cases exn <;> simpa [crawlFinish] using this

/-! ## Media idempotence (C9) -/

theorem memb_cons_self (x : Str) (t : List Str) : memb x (x :: t) = true := by
  simp [memb]

theorem tsFold_fs (env : Env) :
    ∀ (ts : List Str) (w : World),
      ((ts.foldl (fun (wa : World) t => (requestsGet env wa t).2) w).fs) = w.fs := by
  intro ts
  induction ts with
  | nil => intro w; rfl
  | cons t rest ih => intro w; exact ih _

theorem fetchToFile_succ (env : Env) (w : World) (target u p : Str) (w' : World)
    (h : fetchToFile env w target u = (some p, w')) :
    p = target ∧ memb p w'.fs = true := by
  unfold fetchToFile at h
  by_cases hmem : memb target w.fs = true
  · rw [if_pos hmem] at h
    injection h with h1 h2
    injection h1 with h1
    subst h1; subst h2
    exact ⟨rfl, hmem⟩
  · rw [if_neg hmem] at h
    rcases hg : requestsGet env w u with ⟨res, w2⟩
    rw [hg] at h
    rcases res with ⟨st, text⟩ | msg
    · dsimp only at h
      split at h
      · cases h
      · injection h with h1 h2
        injection h1 with h1
        subst h1; subst h2
        exact ⟨rfl, memb_cons_self _ _⟩
    · cases h

theorem fetchToFile_idem (env : Env) (w : World) (target u p : Str) (w' : World)
    (h : fetchToFile env w target u = (some p, w')) :
    fetchToFile env w' target u = (some p, w') := by
  rcases fetchToFile_succ env w target u p w' h with ⟨h1, h2⟩
  subst h1
  unfold fetchToFile
  rw [if_pos h2]

theorem download_image_idem (env : Env) (cfg : Config) (w : World) (u p : Str)
    (w' : World) (h : download_image env cfg w u = (some p, w')) :
    download_image env cfg w' u = (some p, w') := by
  unfold download_image at h ⊢
  rcases hp : urlparseE u [] with e | r <;> simp only [hp] at h ⊢
  · cases h
  · exact fetchToFile_idem env w _ u p w' h

theorem download_video_idem (env : Env) (cfg : Config) (w : World) (u p : Str)
    (w' : World) (h : download_video env cfg w u = (some p, w')) :
    download_video env cfg w' u = (some p, w') := by
  unfold download_video downloadDirect at h ⊢
  rcases hp : urlparseE u [] with e | r <;> simp only [hp] at h ⊢
  · cases h
  · by_cases hm : strHas (lit ".m3u8") u = true
    · rw [if_pos hm] at h ⊢
      by_cases hmem : memb (ospath_join cfg.video_dir
          (env.md5 u ++ lit ".mp4")) w.fs = true
      · rw [if_pos hmem] at h
        injection h with h1 h2
        injection h1 with h1
        subst h1; subst h2
        rw [if_pos hmem]
      · rw [if_neg hmem] at h
        rcases hg : requestsGet env w u with ⟨res, w2⟩
        rw [hg] at h
        rcases res with ⟨st, text⟩ | msg
        · dsimp only at h
          split at h
          · rcases fetchToFile_succ env w2 _ u p w' h with ⟨he, hmem2⟩
            subst he
            rw [if_pos hmem2]
          · split at h
            · rcases fetchToFile_succ env w2 _ u p w' h with ⟨he, hmem2⟩
              subst he
              rw [if_pos hmem2]
            · split at h
              · injection h with h1 h2
                injection h1 with h1
                subst h1; subst h2
                rw [if_pos]
                rw [tsFold_fs env]
                exact memb_cons_self _ _
              · rcases fetchToFile_succ env w2 _ u p w' h with ⟨he, hmem2⟩
                subst he
                rw [if_pos hmem2]
        · rcases fetchToFile_succ env w2 _ u p w' h with ⟨he, hmem2⟩
          subst he
          rw [if_pos hmem2]
    · rw [if_neg hm] at h ⊢
      exact fetchToFile_idem env w _ u p w' h

/-- C9 (confirmed): image and video targets are the md5 of the source
URL plus the inferred extension inside the configured directory, so a
second download of the same URL returns the same local path; and since
the target now exists, the second call returns it with the world
unchanged — in particular no new entry appears in the `requests.get`
log (no second network transfer). -/
theorem c9_media_download_idempotent :
    (∀ env cfg w u p w', download_image env cfg w u = (some p, w') →
      download_image env cfg w' u = (some p, w')) ∧
    (∀ env cfg w u p w', download_video env cfg w u = (some p, w') →
      download_video env cfg w' u = (some p, w')) :=
  ⟨download_image_idem, download_video_idem⟩

theorem c9_media_download_idempotent_witness :
    download_image envBasic cfgBasic
        (download_image envBasic cfgBasic w0 (lit "http://a/b.jpg")).2
        (lit "http://a/b.jpg")
      = (some (lit "./images/http://a/b.jpg.jpg"),
         (download_image envBasic cfgBasic w0 (lit "http://a/b.jpg")).2) ∧
    download_video envBasic cfgBasic
        (download_video envBasic cfgBasic w0 (lit "http://a/seg.m3u8")).2
        (lit "http://a/seg.m3u8")
      = (some (lit "./videos/http://a/seg.m3u8.mp4"),
         (download_video envBasic cfgBasic w0 (lit "http://a/seg.m3u8")).2) :=
  ⟨c9_media_download_idempotent.1 envBasic cfgBasic w0 (lit "http://a/b.jpg")
      (lit "./images/http://a/b.jpg.jpg") _ rfl,
   c9_media_download_idempotent.2 envBasic cfgBasic w0 (lit "http://a/seg.m3u8")
      (lit "./videos/http://a/seg.m3u8.mp4") _ rfl⟩

/-! ## Domain admission is suffix matching (C10) -/

/-- C10 (confirmed): `is_valid_url` admits by plain `str.endswith` suffix
matching on the parsed netloc.  Whenever the parse succeeds with
non-empty scheme and netloc, the netloc ends with some `allow_domains`
entry, and ends with no `deny_domains` entry, the URL is admitted; a
netloc ending with a `deny_domains` entry is always rejected; concretely
the unrelated registered domain `evilexample.com` is admitted under
`allow_domains = ["example.com"]`. -/
theorem c10_domain_suffix_admission :
    (∀ (cfg : Config) (url : Str) (r : ParseRes),
      urlparseE url [] = .ok r →
      r.scheme ≠ [] → r.netloc ≠ [] →
      cfg.allow_domains.any (fun a => strEnds a r.netloc) = true →
      cfg.deny_domains.any (fun d => strEnds d r.netloc) = false →
      is_valid_url cfg url = true) ∧
    (∀ (cfg : Config) (url : Str) (r : ParseRes),
      urlparseE url [] = .ok r →
      cfg.deny_domains.any (fun d => strEnds d r.netloc) = true →
      is_valid_url cfg url = false) ∧
    is_valid_url { cfgBasic with allow_domains := [lit "example.com"] }
      (lit "https://evilexample.com/page") = true := by
  refine ⟨?_, ?_, ?_⟩
  · intro cfg url r hok hs hn hall hdeny
    have hane : cfg.allow_domains.isEmpty = false := by
      cases ha : cfg.allow_domains
      · rw [ha] at hall; simp at hall
      · rfl
    simp only [is_valid_url, hok]
    split
    · simp [hall, hdeny]
    · next hcond =>
      exact absurd (by simp [List.isEmpty_eq_true, hs, hn, hane]) hcond
  · intro cfg url r hok hdeny
    have hdne : cfg.deny_domains.isEmpty = false := by
      cases hd : cfg.deny_domains
      · rw [hd] at hdeny; simp at hdeny
      · rfl
    simp only [is_valid_url, hok]
    split
    · cases hA : (cfg.allow_domains.any fun a => strEnds a r.netloc) <;>
        simp [hA, hdne, hdeny]
    · cases hv : (!r.scheme.isEmpty && !r.netloc.isEmpty) <;>
        simp [hv, hdne, hdeny]
  · decide

theorem c10_domain_suffix_admission_witness :
    is_valid_url { cfgBasic with allow_domains := [lit "example.com"] }
      (lit "https://evilexample.com/page") = true ∧
    is_valid_url { cfgBasic with deny_domains := [lit "ads.net"] }
      (lit "https://tracker.ads.net/x") = false :=
  ⟨c10_domain_suffix_admission.1
      { cfgBasic with allow_domains := [lit "example.com"] }
      (lit "https://evilexample.com/page")
      ⟨lit "https", lit "evilexample.com", lit "/page", [], [], []⟩
      rfl (by decide) (by decide) (by decide) (by decide),
   c10_domain_suffix_admission.2.1
      { cfgBasic with deny_domains := [lit "ads.net"] }
      (lit "https://tracker.ads.net/x")
      ⟨lit "https", lit "tracker.ads.net", lit "/x", [], [], []⟩
      rfl (by decide)⟩


/-! ## URL normalization shape lemmas (C8)

The crawler normalizes every discovered link with `normalize_url`; these
lemmas characterize `urlsplit`/`urlparse`/`urljoin` on clean absolute
URLs (`scheme://host/path` with lowercase scheme, bracket-free host and
delimiter-free path) and show the parse never raises on bracket-free
ASCII input. -/

theorem lsc_not_c0 {c : Char} (hc : isLowerSchemeChar c = true) :
    isC0OrSpace c = false := by
  simp [isLowerSchemeChar] at hc
  simp [isC0OrSpace]
  omega

theorem lsc_scheme {c : Char} (hc : isLowerSchemeChar c = true) :
    isSchemeChar c = true := by
  simp [isLowerSchemeChar] at hc
  simp [isSchemeChar]
  omega

theorem lsc_lower {c : Char} (hc : isLowerSchemeChar c = true) :
    pyLowerChar c = c := by
  simp [isLowerSchemeChar] at hc
  simp only [pyLowerChar]
  rw [if_neg (by omega)]

theorem lsc_ne_colon {c : Char} (hc : isLowerSchemeChar c = true) : c ≠ ':' :=
  fun h => absurd (h ▸ hc) (by decide)

theorem chc_q {c : Char} (hc : cleanHostChar c = true) :
    (!(c = '/' || c = '?' || c = '#')) = true := by
  have h47 : c ≠ '/' := fun h => absurd (h ▸ hc) (by decide)
  have h63 : c ≠ '?' := fun h => absurd (h ▸ hc) (by decide)
  have h35 : c ≠ '#' := fun h => absurd (h ▸ hc) (by decide)
  simp [h47, h63, h35]

theorem dropWhile_all_false {q : Char → Bool} {l : Str}
    (h : ∀ x ∈ l, q x = false) : l.dropWhile q = l := by
  induction l with
  | nil => rfl
  | cons y t ih =>
    rw [List.dropWhile_cons, if_neg (by simp [h y (List.mem_cons_self y t)])]

theorem findChar_append (c : Char) (l r : Str) (hl : c ∉ l) :
    findChar c (l ++ c :: r) = some l.length := by
  induction l with
  | nil => simp [findChar]
  | cons x t ih =>
    have hx : x ≠ c := fun h => hl (h ▸ List.mem_cons_self x t)
    simp [findChar, hx, ih (fun h => hl (List.mem_cons_of_mem x h))]

theorem findChar_none (c : Char) (l : Str) (hl : c ∉ l) :
    findChar c l = Option.none := by
  induction l with
  | nil => rfl
  | cons x t ih =>
    have hx : x ≠ c := fun h => hl (h ▸ List.mem_cons_self x t)
    simp [findChar, hx, ih (fun h => hl (List.mem_cons_of_mem x h))]

theorem strHas_single {c : Char} {l : Str} :
    strHas [c] l = true ↔ c ∈ l := by
  induction l with
  | nil => simp [strHas]
  | cons x t ih =>
    simp [strHas, List.isPrefixOf, ih, List.mem_cons]

theorem takeWhile_all_append (q : Char → Bool) (l r : Str)
    (hl : ∀ x ∈ l, q x = true) :
    (l ++ r).takeWhile q = l ++ r.takeWhile q := by
  induction l with
  | nil => rfl
  | cons x t ih =>
    rw [List.cons_append, List.takeWhile_cons,
      if_pos (hl x (List.mem_cons_self x t)), List.cons_append]
    rw [ih (fun y hy => hl y (List.mem_cons_of_mem x hy))]

theorem map_self_of {f : Char → Char} {l : Str} (h : ∀ x ∈ l, f x = x) :
    l.map f = l := by
  induction l with
  | nil => rfl
  | cons x t ih =>
    rw [List.map_cons, h x (List.mem_cons_self x t),
      ih (fun y hy => h y (List.mem_cons_of_mem x hy))]

theorem getLastD_append (l : Str) {r : Str} (hr : r ≠ []) (d : Char) :
    (l ++ r).getLastD d = r.getLastD d := by
  induction l generalizing d with
  | nil => rfl
  | cons x t ih =>
    rcases r with _ | ⟨y, r'⟩
    · exact absurd rfl hr
    · rw [List.cons_append, List.getLastD_cons, ih x,
        List.getLastD_cons, List.getLastD_cons]

theorem drop_append_succ (l r : Str) (c : Char) :
    (l ++ c :: r).drop (l.length + 1) = r := by
  rw [List.append_cons]
  have hlen : (l ++ [c]).length = l.length + 1 := by simp
  rw [← hlen, List.drop_left]

theorem memb_mem {s : Str} {l : List Str} (h : memb s l = true) : s ∈ l := by
  unfold memb at h
  rcases List.any_eq_true.mp h with ⟨t, ht, he⟩
  simp at he
  exact he ▸ ht

theorem rel_sub_netloc : ∀ t ∈ uses_relative, memb t uses_netloc = true := by
  decide

theorem takeWhile_sub {q : Char → Bool} {l : Str} {x : Char}
    (h : x ∈ l.takeWhile q) : x ∈ l := by
  induction l with
  | nil => simp at h
  | cons y t ih =>
    rw [List.takeWhile_cons] at h
    by_cases hq : q y = true
    · rw [if_pos hq] at h
      rcases List.mem_cons.mp h with h | h
      · exact h ▸ List.mem_cons_self y t
      · exact List.mem_cons_of_mem y (ih h)
    · rw [if_neg hq] at h
      simp at h

theorem dropWhile_sub {q : Char → Bool} {l : Str} {x : Char}
    (h : x ∈ l.dropWhile q) : x ∈ l := by
  induction l with
  | nil => simp at h
  | cons y t ih =>
    rw [List.dropWhile_cons] at h
    by_cases hq : q y = true
    · rw [if_pos hq] at h
      exact List.mem_cons_of_mem y (ih h)
    · rw [if_neg hq] at h
      exact h


theorem urlsplitE_clean (s h p d : Str)
    (hs0 : s ≠ [])
    (hsA : (s.headD ' ').isAlpha = true)
    (hsL : s.all isLowerSchemeChar = true)
    (hhC : h.all cleanHostChar = true)
    (hpH : p = [] ∨ p.headD ' ' = '/')
    (hpC : p.all cleanPathChar = true) :
    urlsplitE (s ++ ':' :: '/' :: '/' :: (h ++ p)) d =
      .ok ⟨s, h, p, [], []⟩ := by
  have hsLm := List.all_eq_true.mp hsL
  have hhCm := List.all_eq_true.mp hhC
  have hpCm := List.all_eq_true.mp hpC
  have hprint : ∀ x ∈ s ++ ':' :: '/' :: '/' :: (h ++ p),
      33 ≤ x.toNat ∧ x.toNat ≤ 126 := by
    intro x hx
    simp only [List.mem_append, List.mem_cons] at hx
    rcases hx with hx | hx | hx | hx | hx
    · have := hsLm x hx
      simp [isLowerSchemeChar] at this
      omega
    · subst hx; decide
    · subst hx; decide
    · subst hx; decide
    · rcases hx with hx | hx
      · have := hhCm x hx
        simp [cleanHostChar] at this
        omega
      · have := hpCm x hx
        simp [cleanPathChar] at this
        omega
  have hurl1 : ((s ++ ':' :: '/' :: '/' :: (h ++ p)).dropWhile
      isC0OrSpace).filter (fun c => !isUnsafeByte c)
      = s ++ ':' :: '/' :: '/' :: (h ++ p) := by
    rw [dropWhile_all_false (fun x hx => by
      have := hprint x hx; simp [isC0OrSpace]; omega)]
    exact List.filter_eq_self.mpr (fun x hx => by
      have := hprint x hx; simp [isUnsafeByte]; omega)
  have hfind : findChar ':' (s ++ ':' :: '/' :: '/' :: (h ++ p))
      = some s.length :=
    findChar_append ':' s _ (fun hm => absurd (hsLm ':' hm) (by decide))
  have h0i : 0 < s.length := List.length_pos.mpr hs0
  have hheadA : ((s ++ ':' :: '/' :: '/' :: (h ++ p)).headD ' ').isAlpha
      = true := by
    rcases s with _ | ⟨c, s'⟩
    · exact absurd rfl hs0
    · simpa using hsA
  have htake : (s ++ ':' :: '/' :: '/' :: (h ++ p)).take s.length = s :=
    List.take_left s _
  have hallS : s.all isSchemeChar = true :=
    List.all_eq_true.mpr (fun x hx => lsc_scheme (hsLm x hx))
  have hmap : s.map pyLowerChar = s := map_self_of (fun x hx => lsc_lower (hsLm x hx))
  have hdropS : (s ++ ':' :: '/' :: '/' :: (h ++ p)).drop (s.length + 1)
      = '/' :: '/' :: (h ++ p) :=
    drop_append_succ s _ ':'
  have htw : (h ++ p).takeWhile (fun c => !(c = '/' || c = '?' || c = '#'))
      = h := by
    rw [takeWhile_all_append _ _ _ (fun x hx => chc_q (hhCm x hx))]
    rcases hpH with hp0 | hph
    · subst hp0; simp
    · rcases p with _ | ⟨y, p'⟩
      · simp
      · simp at hph
        subst hph
        rw [List.takeWhile_cons, if_neg (by decide)]
        simp
  have hd2 : (h ++ p).drop h.length = p := List.drop_left h p
  have hlb : ('[' ∈ h) → False := fun hm => absurd (hhCm '[' hm) (by decide)
  have hrb : (']' ∈ h) → False := fun hm => absurd (hhCm ']' hm) (by decide)
  have hbr1 : strHas ['['] h = false := by
    cases hB : strHas ['['] h
    · rfl
    · exact absurd (strHas_single.mp hB) hlb
  have hbr2 : strHas [']'] h = false := by
    cases hB : strHas [']'] h
    · rfl
    · exact absurd (strHas_single.mp hB) hrb
  have hfh : findChar '#' p = Option.none :=
    findChar_none _ _ (fun hm => absurd (hpCm '#' hm) (by decide))
  have hfq : findChar '?' p = Option.none :=
    findChar_none _ _ (fun hm => absurd (hpCm '?' hm) (by decide))
  have hguard : 0 < s.length ∧
      ((s ++ ':' :: '/' :: '/' :: (h ++ p)).headD ' ').isAlpha = true ∧
      ((s ++ ':' :: '/' :: '/' :: (h ++ p)).take s.length).all isSchemeChar
        = true :=
    ⟨h0i, hheadA, by rw [htake]; exact hallS⟩
  unfold urlsplitE
  dsimp only
  rw [hurl1, hfind]
  dsimp only
  rw [if_pos hguard]
  dsimp only
  rw [htake, hmap, hdropS]
  rw [if_pos (show List.take 2 ('/' :: '/' :: (h ++ p)) = ['/', '/'] from rfl)]
  dsimp only [List.drop]
  rw [htw, hd2]
  rw [if_neg (by simp [hbr1, hbr2]), if_neg (by simp [hbr1])]
  simp [urlsplitTail, hfh, hfq]


theorem strHas_false_of_not_mem {c : Char} {l : Str} (h : (c ∈ l) → False) :
    strHas [c] l = false := by
  cases hB : strHas [c] l
  · rfl
  · exact absurd (strHas_single.mp hB) h

theorem urlparseE_clean (s h p d : Str)
    (hs0 : s ≠ [])
    (hsA : (s.headD ' ').isAlpha = true)
    (hsL : s.all isLowerSchemeChar = true)
    (hhC : h.all cleanHostChar = true)
    (hpH : p = [] ∨ p.headD ' ' = '/')
    (hpC : p.all cleanPathChar = true) :
    urlparseE (s ++ ':' :: '/' :: '/' :: (h ++ p)) d =
      .ok ⟨s, h, p, [], [], []⟩ := by
  have hsem : strHas [';'] p = false :=
    strHas_false_of_not_mem (fun hm =>
      absurd (List.all_eq_true.mp hpC ';' hm) (by decide))
  unfold urlparseE
  rw [urlsplitE_clean s h p d hs0 hsA hsL hhC hpH hpC]
  simp [hsem]

theorem urlsplitE_plain_ok (b d : Str) (hb : plainStr b = true) :
    ∃ r, urlsplitE b d = .ok r := by
  have hb' := List.all_eq_true.mp hb
  have hnb : ∀ u : Str, (∀ x ∈ u, x ∈ b) →
      strHas ['[']
        (u.takeWhile (fun c => !(c = '/' || c = '?' || c = '#'))) = false ∧
      strHas [']']
        (u.takeWhile (fun c => !(c = '/' || c = '?' || c = '#'))) = false := by
    intro u hu
    refine ⟨strHas_false_of_not_mem (fun hm => ?_),
      strHas_false_of_not_mem (fun hm => ?_)⟩
    · have := hb' '[' (hu '[' (takeWhile_sub hm))
      simp [plainChar] at this
    · have := hb' ']' (hu ']' (takeWhile_sub hm))
      simp [plainChar] at this
  have hFsub : ∀ x ∈ (b.dropWhile isC0OrSpace).filter
      (fun c => !isUnsafeByte c), x ∈ b :=
    fun x hx => dropWhile_sub (List.mem_filter.mp hx).1
  unfold urlsplitE
  dsimp only
  generalize hF : (b.dropWhile isC0OrSpace).filter
      (fun c => !isUnsafeByte c) = F
  rw [hF] at hFsub
  generalize (((d.dropWhile isC0OrSpace).reverse.dropWhile
      isC0OrSpace).reverse).filter (fun c => !isUnsafeByte c) = D
  rcases hf : findChar ':' F with _ | i
  all_goals dsimp only
  · by_cases h2 : F.take 2 = ['/', '/']
    · rw [if_pos h2]
      rcases hnb (F.drop 2) (fun x hx => hFsub x (List.drop_subset _ _ hx))
        with ⟨hL, hR⟩
      rw [if_neg (by simp only [hL, hR]; decide), if_neg (by simp only [hL]; decide)]
      exact ⟨_, rfl⟩
    · rw [if_neg h2]
      exact ⟨_, rfl⟩
  · by_cases hg : 0 < i ∧ (F.headD ' ').isAlpha = true ∧
        (F.take i).all isSchemeChar = true
    · rw [if_pos hg]
      dsimp only
      by_cases h2 : (F.drop (i + 1)).take 2 = ['/', '/']
      · rw [if_pos h2]
        rcases hnb ((F.drop (i + 1)).drop 2) (fun x hx => hFsub x
          (List.drop_subset _ _ (List.drop_subset _ _ hx))) with ⟨hL, hR⟩
        rw [if_neg (by simp only [hL, hR]; decide), if_neg (by simp only [hL]; decide)]
        exact ⟨_, rfl⟩
      · rw [if_neg h2]
        exact ⟨_, rfl⟩
    · rw [if_neg hg]
      dsimp only
      by_cases h2 : F.take 2 = ['/', '/']
      · rw [if_pos h2]
        rcases hnb (F.drop 2) (fun x hx => hFsub x (List.drop_subset _ _ hx))
          with ⟨hL, hR⟩
        rw [if_neg (by simp only [hL, hR]; decide), if_neg (by simp only [hL]; decide)]
        exact ⟨_, rfl⟩
      · rw [if_neg h2]
        exact ⟨_, rfl⟩

theorem urlparseE_plain_ok (b d : Str) (hb : plainStr b = true) :
    ∃ r, urlparseE b d = .ok r := by
  rcases urlsplitE_plain_ok b d hb with ⟨r, hr⟩
  refine ⟨⟨r.scheme, r.netloc,
      (if memb r.scheme uses_params && strHas [';'] r.path
        then splitparams r.path else (r.path, [])).1,
      (if memb r.scheme uses_params && strHas [';'] r.path
        then splitparams r.path else (r.path, [])).2,
      r.query, r.fragment⟩, ?_⟩
  unfold urlparseE
  rw [hr]
  rfl



theorem urljoinE_clean (b s h p : Str)
    (hb : plainStr b = true)
    (hs0 : s ≠ [])
    (hsA : (s.headD ' ').isAlpha = true)
    (hsL : s.all isLowerSchemeChar = true)
    (hh0 : h ≠ [])
    (hhC : h.all cleanHostChar = true)
    (hpH : p = [] ∨ p.headD ' ' = '/')
    (hpC : p.all cleanPathChar = true) :
    urljoinE b (s ++ ':' :: '/' :: '/' :: (h ++ p)) =
      .ok (s ++ ':' :: '/' :: '/' :: (h ++ p)) := by
  have hn0 : s ++ ':' :: '/' :: '/' :: (h ++ p) ≠ [] := by
    rcases s with _ | ⟨c, s'⟩
    · exact absurd rfl hs0
    · simp
  have hpcond : ¬(p ≠ [] ∧ p.headD ' ' ≠ '/') := by
    rcases hpH with hp0 | hph
    · exact fun hc => hc.1 hp0
    · exact fun hc => hc.2 hph
  have hunp : urlunparse s h p [] [] [] =
      s ++ ':' :: '/' :: '/' :: (h ++ p) := by
    rw [urlunparse, if_neg (fun hc : ([] : Str) ≠ [] => hc rfl)]
    rw [urlunsplit]
    dsimp only
    rw [if_pos (Or.inl hh0)]
    rw [if_neg hpcond]
    rw [if_pos hs0]
    rw [if_neg (fun hc : ([] : Str) ≠ [] => hc rfl),
      if_neg (fun hc : ([] : Str) ≠ [] => hc rfl)]
  by_cases hb0 : b = []
  · subst hb0
    rw [urljoinE, if_pos rfl]
  · rcases urlparseE_plain_ok b [] hb with ⟨rb, hrb⟩
    have hu := urlparseE_clean s h p rb.scheme hs0 hsA hsL hhC hpH hpC
    rw [urljoinE, if_neg hb0, if_neg hn0, hrb]
    dsimp only
    rw [hu]
    dsimp only
    by_cases hC1 : s ≠ rb.scheme ∨ ¬ memb s uses_relative = true
    · rw [if_pos hC1]
    · rw [if_neg hC1]
      push_neg at hC1
      have hnet : memb s uses_netloc = true :=
        rel_sub_netloc s (memb_mem hC1.2)
      rw [if_pos ⟨hnet, hh0⟩, hunp]


theorem normalize_urlE_clean (b s h p : Str)
    (hb : plainStr b = true)
    (hs0 : s ≠ [])
    (hsA : (s.headD ' ').isAlpha = true)
    (hsL : s.all isLowerSchemeChar = true)
    (hh0 : h ≠ [])
    (hhC : h.all cleanHostChar = true)
    (hpH : p = [] ∨ p.headD ' ' = '/')
    (hpC : p.all cleanPathChar = true)
    (hsl : ¬(p.getLastD ' ' = '/' ∧ p ≠ ['/'])) :
    normalize_urlE (s ++ ':' :: '/' :: '/' :: (h ++ p)) b =
      .ok (s ++ ':' :: '/' :: '/' :: (h ++ p)) := by
  rcases urlparseE_plain_ok b [] hb with ⟨rb, hrb⟩
  have hj := urljoinE_clean b s h p hb hs0 hsA hsL hh0 hhC hpH hpC
  have hp2 := urlparseE_clean s h p [] hs0 hsA hsL hhC hpH hpC
  have hassoc : (s ++ ':' :: '/' :: '/' :: h) ++ p
      = s ++ ':' :: '/' :: '/' :: (h ++ p) := by simp
  have hcond : ¬((s ++ ':' :: '/' :: '/' :: (h ++ p)).getLastD ' ' = '/' ∧
      (s ++ ':' :: '/' :: '/' :: (h ++ p)).length >
        (s ++ ':' :: '/' :: '/' :: h).length + 1) := by
    intro hc
    rcases hc with ⟨hc1, hc2⟩
    by_cases hp0 : p = []
    · subst hp0
      simp only [List.length_append, List.length_cons, List.length_nil,
        List.append_nil] at hc2
      omega
    · have hgl : (s ++ ':' :: '/' :: '/' :: (h ++ p)).getLastD ' '
          = p.getLastD ' ' := by
        rw [← hassoc]
        exact getLastD_append _ hp0 ' '
      have hpslash : p = ['/'] := by
        by_contra hne
        exact hsl ⟨hgl ▸ hc1, hne⟩
      subst hpslash
      simp only [List.length_append, List.length_cons, List.length_nil] at hc2
      omega
  rw [normalize_urlE, hrb]
  dsimp only
  rw [hj]
  dsimp only
  rw [hp2]
  dsimp only
  rw [hassoc]
  rw [if_neg hcond]


/-- C8 (corrected): `normalize_url` is not idempotent on arbitrary input
— `https://x.com/a//` normalizes to `https://x.com/a/`, which normalizes
again to `https://x.com/a` (`c8_counterexample_double_slash`) — but it is
idempotent on outputs in clean normalized shape: when a normalization
output has a lowercase scheme, a non-empty bracket-free host and a
delimiter-free path starting with `/` that is not slash-terminated
except for the bare root, re-normalizing it against the same bracket-free
ASCII base returns it unchanged. -/
theorem c8_normalize_idempotent_on_clean_shape :
    ∀ (u b n : Str), plainStr b = true →
      normalize_urlE u b = .ok n → cleanNorm n = true →
      normalize_urlE n b = .ok n := by
  intro u b n hb h1 hcn
  rcases hdec : decompAbs n with ⟨S, H, P⟩
  simp only [cleanNorm, hdec] at hcn
  simp only [Bool.and_eq_true] at hcn
  obtain ⟨⟨⟨⟨⟨⟨⟨⟨he, hS0⟩, hSA⟩, hSL⟩, hH0⟩, hHC⟩, hPH⟩, hPC⟩, hsl⟩ := hcn
  have he' : n = S ++ ':' :: '/' :: '/' :: (H ++ P) := eq_of_beq he
  have hS0' : S ≠ [] := by simpa using hS0
  have hH0' : H ≠ [] := by simpa using hH0
  have hPH' : P = [] ∨ P.headD ' ' = '/' := by simpa using hPH
  have hsl' : ¬(P.getLastD ' ' = '/' ∧ P ≠ ['/']) := by
    rw [List.getLastD_eq_getLast?]
    simp at hsl
    tauto
  rw [he']
  exact normalize_urlE_clean b S H P hb hS0' hSA hSL hH0' hHC hPH' hPC hsl'


/-- C8 counterexample: one normalization pass strips only one trailing
slash, so `https://x.com/a//` is not a fixed point of its own
normalization output — `normalize(normalize(u)) ≠ normalize(u)`. -/
theorem c8_counterexample_double_slash :
    normalize_urlE (lit "https://x.com/a//") (lit "https://x.com")
      = .ok (lit "https://x.com/a/") ∧
    normalize_urlE (lit "https://x.com/a/") (lit "https://x.com")
      = .ok (lit "https://x.com/a") ∧
    lit "https://x.com/a/" ≠ lit "https://x.com/a" :=
  ⟨by rfl, by rfl, by decide⟩

theorem c8_normalize_idempotent_on_clean_shape_witness :
    plainStr (lit "https://x.com") = true ∧
    cleanNorm (lit "https://x.com/a") = true ∧
    normalize_urlE (lit "https://x.com/a") (lit "https://x.com")
      = .ok (lit "https://x.com/a") :=
  ⟨by decide, by decide,
   c8_normalize_idempotent_on_clean_shape (lit "https://x.com/a")
     (lit "https://x.com") (lit "https://x.com/a") (by decide) (by rfl)
     (by decide)⟩


end PyCrawl
